import Mathlib

/-!
# The evince daemon (`shell/ev-daemon.c`): document registry and idle shutdown

A shallow embedding of the daemon's global state (`ev_daemon_docs`,
`kill_timer_id`) and of its callbacks, followed by the properties proved
about them.  The two C globals, together with the part of the GLib main
context the callbacks touch (pending timeout sources, name watches, the
running flag of the main loop), are threaded through the functions as a
`Daemon` value.
-/

namespace EvDaemon

/-! ## Constants -/

/-- The macro `EV_DBUS_DAEMON_INTERFACE_NAME`. -/
def EV_DBUS_DAEMON_INTERFACE_NAME : String := "org.gnome.evince.Daemon"

/-- The macro `DAEMON_TIMEOUT`, in seconds. -/
def DAEMON_TIMEOUT : Nat := 30

/-! ## Data model -/

/-- The struct `EvDoc`: owner bus name, document uri, id of the name watch. -/
structure EvDoc where
  dbus_name : String
  uri : String
  watch_id : Nat
deriving DecidableEq, Repr

/-- A pending timeout source of the main context: its id and the clock value
(seconds) from which it may be dispatched. -/
structure GTimeout where
  id : Nat
  deadline : Nat
deriving DecidableEq, Repr

/-- An active bus-name watch created by `g_bus_watch_name`. -/
structure GWatch where
  id : Nat
  name : String
deriving DecidableEq, Repr

/-- The daemon state.  `ev_daemon_docs` and `kill_timer_id` are the two C
globals; the other fields are the GLib side: the monotonic clock, the pending
timeout sources and the last source id handed out, the active name watches
and the last watch id handed out, and whether the main loop is running. -/
structure Daemon where
  ev_daemon_docs : List EvDoc
  kill_timer_id : Nat
  now : Nat
  timeouts : List GTimeout
  last_source_id : Nat
  watches : List GWatch
  last_watch_id : Nat
  loop_running : Bool
deriving DecidableEq, Repr

/-- The state at process start: both globals are zero, nothing is pending. -/
def Daemon.init : Daemon :=
  { ev_daemon_docs := [], kill_timer_id := 0, now := 0, timeouts := [],
    last_source_id := 0, watches := [], last_watch_id := 0,
    loop_running := false }

/-- The members of the `G_DBUS_ERROR` enumeration that matter here. -/
inductive GDBusError where
  | FAILED
  | ACCESS_DENIED
  | INVALID_ARGS
  | BAD_ADDRESS
deriving DecidableEq, Repr

/-- What a method call hands back through its invocation object.
`return_string owner` is
`g_dbus_method_invocation_return_value (invocation, g_variant_new_string (owner))`,
where `owner` is the C pointer passed (`none` is `NULL`);
`return_unit` is the same call with `g_variant_new ("()")`;
`return_error` is `g_dbus_method_invocation_return_error_literal`. -/
inductive Reply where
  | return_string (owner : Option String)
  | return_unit
  | return_error (code : GDBusError) (message : String)
deriving DecidableEq, Repr

/-! ## GLib primitives used by the daemon -/

/-- The call `g_source_remove (id)`: the source with this id is no longer pending. -/
def g_source_remove (s : Daemon) (id : Nat) : Daemon :=
  { s with timeouts := s.timeouts.filter (fun t => t.id ≠ id) }

/-- The call `g_timeout_add_seconds (interval, ev_daemon_shutdown, data)`: a new
source with a fresh positive id, due `interval` seconds from now. -/
def g_timeout_add_seconds (s : Daemon) (interval : Nat) : Nat × Daemon :=
  (s.last_source_id + 1,
   { s with last_source_id := s.last_source_id + 1,
            timeouts := ⟨s.last_source_id + 1, s.now + interval⟩ :: s.timeouts })

/-- The call `g_bus_watch_name (..., name, ...)`: a new watch with a fresh
positive id. -/
def g_bus_watch_name (s : Daemon) (name : String) : Nat × Daemon :=
  (s.last_watch_id + 1,
   { s with last_watch_id := s.last_watch_id + 1,
            watches := ⟨s.last_watch_id + 1, name⟩ :: s.watches })

/-- The call `g_bus_unwatch_name (watch_id)`. -/
def g_bus_unwatch_name (s : Daemon) (watch_id : Nat) : Daemon :=
  { s with watches := s.watches.filter (fun w => w.id ≠ watch_id) }

/-- The call `g_list_remove (list, doc)`: drops the first node holding `doc`.
Nodes are compared by value here; for the node returned by
`ev_daemon_find_doc` that is the node itself (see `g_list_remove_find`). -/
def g_list_remove (list : List EvDoc) (doc : EvDoc) : List EvDoc :=
  list.erase doc

/-! ## The daemon's functions -/

/-- The function `ev_doc_free`: releases the name watch of the document. -/
def ev_doc_free (s : Daemon) (doc : EvDoc) : Daemon :=
  g_bus_unwatch_name s doc.watch_id

/-- The function `ev_daemon_find_doc`: first document with this uri. -/
def ev_daemon_find_doc : List EvDoc → String → Option EvDoc
  | [], _ => none
  | doc :: l, uri => if doc.uri = uri then some doc else ev_daemon_find_doc l uri

/-- The function `ev_daemon_stop_killtimer`. -/
def ev_daemon_stop_killtimer (s : Daemon) : Daemon :=
  let s1 := if s.kill_timer_id ≠ 0 then g_source_remove s s.kill_timer_id else s
  { s1 with kill_timer_id := 0 }

/-- The function `ev_daemon_shutdown`: quits the main loop when it runs. -/
def ev_daemon_shutdown (s : Daemon) : Daemon :=
  if s.loop_running then { s with loop_running := false } else s

/-- The function `ev_daemon_maybe_start_killtimer`. -/
def ev_daemon_maybe_start_killtimer (s : Daemon) : Daemon :=
  let s1 := ev_daemon_stop_killtimer s
  if s1.ev_daemon_docs ≠ [] then s1
  else
    let r := g_timeout_add_seconds s1 DAEMON_TIMEOUT
    { r.2 with kill_timer_id := r.1 }

/-- The loop of `name_vanished_cb`: walks the list to the first document whose
`dbus_name` is `name`; yields that document and the list without its node
(`g_list_delete_link`), or `none` when the loop runs off the end. -/
def name_vanished_scan (name : String) : List EvDoc → Option (EvDoc × List EvDoc)
  | [] => none
  | doc :: l =>
    if doc.dbus_name ≠ name then
      (name_vanished_scan name l).map (fun r => (r.1, doc :: r.2))
    else some (doc, l)

/-- The function `name_vanished_cb`. -/
def name_vanished_cb (s : Daemon) (name : String) : Daemon :=
  match name_vanished_scan name s.ev_daemon_docs with
  | none => s
  | some (doc, docs) =>
    ev_daemon_maybe_start_killtimer (ev_doc_free { s with ev_daemon_docs := docs } doc)

/-- The function `name_appeared_cb`: empty body. -/
def name_appeared_cb (s : Daemon) (_name : String) : Daemon := s

/-- The function `method_call_cb`; `uri` is the string unpacked from
`parameters`.  The second component is the reply, `none` when the function
returns without answering. -/
def method_call_cb (s : Daemon) (sender interface_name method_name uri : String) :
    Daemon × Option Reply :=
  if interface_name ≠ EV_DBUS_DAEMON_INTERFACE_NAME then (s, none)
  else if method_name = "RegisterDocument" then
    let r : Daemon × Option String :=
      match ev_daemon_find_doc s.ev_daemon_docs uri with
      | some doc => (s, some doc.dbus_name)
      | none =>
        let s1 := ev_daemon_stop_killtimer s
        let w := g_bus_watch_name s1 sender
        ({ w.2 with ev_daemon_docs := ⟨sender, uri, w.1⟩ :: w.2.ev_daemon_docs }, none)
    (r.1, some (Reply.return_string r.2))
  else if method_name = "UnregisterDocument" then
    match ev_daemon_find_doc s.ev_daemon_docs uri with
    | none => (s, some (Reply.return_error GDBusError.INVALID_ARGS "URI not registered"))
    | some doc =>
      if doc.dbus_name ≠ sender then
        (s, some (Reply.return_error GDBusError.BAD_ADDRESS "Only owner can call this method"))
      else
        let s1 := { s with ev_daemon_docs := g_list_remove s.ev_daemon_docs doc }
        (ev_daemon_maybe_start_killtimer (ev_doc_free s1 doc), some Reply.return_unit)
  else (s, none)

/-- The function `name_acquired_cb`; `ev_migrate_metadata` works on files only
and leaves the daemon state alone. -/
def name_acquired_cb (s : Daemon) : Daemon :=
  ev_daemon_maybe_start_killtimer s

/-- The function `name_lost_cb`: quits the main loop when it runs. -/
def name_lost_cb (s : Daemon) : Daemon :=
  if s.loop_running then { s with loop_running := false } else s

/-! ## The bus operations and the event loop -/

/-- A `RegisterDocument (uri)` call on the daemon interface from `sender`. -/
def RegisterDocument (s : Daemon) (sender uri : String) : Daemon × Option Reply :=
  method_call_cb s sender EV_DBUS_DAEMON_INTERFACE_NAME "RegisterDocument" uri

/-- An `UnregisterDocument (uri)` call on the daemon interface from `sender`. -/
def UnregisterDocument (s : Daemon) (sender uri : String) : Daemon × Option Reply :=
  method_call_cb s sender EV_DBUS_DAEMON_INTERFACE_NAME "UnregisterDocument" uri

/-- What the main loop can deliver to the registry callbacks; `elapse` is time
passing between two dispatches. -/
inductive Event where
  | RegisterDocument (sender uri : String)
  | UnregisterDocument (sender uri : String)
  | name_vanished (name : String)
  | name_acquired
  | elapse (seconds : Nat)
deriving DecidableEq, Repr

/-- One dispatch. -/
def step (s : Daemon) : Event → Daemon
  | Event.RegisterDocument sender uri => (RegisterDocument s sender uri).1
  | Event.UnregisterDocument sender uri => (UnregisterDocument s sender uri).1
  | Event.name_vanished name => name_vanished_cb s name
  | Event.name_acquired => name_acquired_cb s
  | Event.elapse seconds => { s with now := s.now + seconds }

/-- The dispatches of a list of events, in order. -/
def run (s : Daemon) (evs : List Event) : Daemon :=
  evs.foldl step s

/-- The states the daemon can be in: those some sequence of events leads to
from the state at process start. -/
def Reachable (s : Daemon) : Prop :=
  ∃ evs : List Event, run Daemon.init evs = s

/-- Consecutive `RegisterDocument` calls, each given as (sender, uri). -/
def register_all (s : Daemon) (calls : List (String × String)) : Daemon :=
  calls.foldl (fun st c => (RegisterDocument st c.1 c.2).1) s

/-- Consecutive name-vanished notifications for the same name. -/
def name_vanished_times (name : String) : Nat → Daemon → Daemon
  | 0, s => s
  | k + 1, s => name_vanished_times name k (name_vanished_cb s name)

/-- The documents owned by a bus name. -/
def owned_by (name : String) (docs : List EvDoc) : List EvDoc :=
  docs.filter (fun d => d.dbus_name = name)

/-- Everything the main loop dispatches while `main` sits in
`g_main_loop_run`: the registry events, the name-lost callback, and a timeout
source coming due. -/
inductive LoopEvent where
  | daemon (e : Event)
  | name_lost
  | timeout (id : Nat)
deriving DecidableEq, Repr

/-- One dispatch of the main loop.  A timeout source is dispatched only while
pending and due; its callback `ev_daemon_shutdown` returns `FALSE`, so the
source is destroyed afterwards. -/
def dispatch (s : Daemon) : LoopEvent → Daemon
  | LoopEvent.daemon e => step s e
  | LoopEvent.name_lost => name_lost_cb s
  | LoopEvent.timeout id =>
    if s.timeouts.any (fun t => t.id = id ∧ t.deadline ≤ s.now) then
      g_source_remove (ev_daemon_shutdown s) id
    else s

/-- The iterations of a running main loop: dispatch until one of the callbacks
quits the loop.  `none` when the events run out with the loop still running. -/
def main_loop_iterate : Daemon → List LoopEvent → Option Daemon
  | _, [] => none
  | s, e :: evs =>
    let s1 := dispatch s e
    if s1.loop_running then main_loop_iterate s1 evs else some s1

/-- The call `g_main_loop_run (loop)`. -/
def g_main_loop_run (s : Daemon) (evs : List LoopEvent) : Option Daemon :=
  main_loop_iterate { s with loop_running := true } evs

/-- The function `main`.  `connection` is the result of `g_bus_get_sync`
(`false` for `NULL`), `registration_id` that of
`g_dbus_connection_register_object`, `evs` what the main loop gets to
dispatch.  The result is the exit status, `none` while the loop still runs. -/
def main (connection : Bool) (registration_id : Nat) (evs : List LoopEvent) : Option Nat :=
  if connection = false then some 1
  else if registration_id = 0 then some 1
  else
    match g_main_loop_run Daemon.init evs with
    | none => none
    | some _ => some 0

/-- Whether the idle timer is armed: `kill_timer_id` is set. -/
def timer_armed (s : Daemon) : Prop := s.kill_timer_id ≠ 0

instance (s : Daemon) : Decidable (timer_armed s) := by
  unfold timer_armed; infer_instance

/-- No two documents of the registry have the same uri. -/
def unique_keys (s : Daemon) : Prop := (s.ev_daemon_docs.map EvDoc.uri).Nodup

instance (s : Daemon) : Decidable (unique_keys s) := by
  unfold unique_keys; infer_instance

/-- The pending timeout sources agree with `kill_timer_id`: either the id is
zero and nothing is pending, or the one pending source is the one it names. -/
def timer_consistent (s : Daemon) : Prop :=
  (s.kill_timer_id = 0 ∧ s.timeouts = []) ∨
  (s.kill_timer_id ≠ 0 ∧ ∃ deadline, s.timeouts = [⟨s.kill_timer_id, deadline⟩])

/-- The bus identity an event is attributed to: the sender of a method call,
the name of a name-vanished notification; the other events have none. -/
def event_identity : Event → Option String
  | Event.RegisterDocument sender _ => some sender
  | Event.UnregisterDocument sender _ => some sender
  | Event.name_vanished name => some name
  | Event.name_acquired => none
  | Event.elapse _ => none

/-- The reply signature of a method as `introspection_xml` declares it: the
tuple of its `out` arguments (`owner`, of type `s`, for `RegisterDocument`;
none for `UnregisterDocument`). -/
def out_signature (method_name : String) : Option String :=
  if method_name = "RegisterDocument" then some "(s)"
  else if method_name = "UnregisterDocument" then some "()"
  else none

/-- The GVariant type of the value a reply hands to
`g_dbus_method_invocation_return_value`: `g_variant_new_string` makes a value
of type `s` from a string and none from `NULL`; `g_variant_new ("()")` makes
the empty tuple. -/
def Reply.value_type : Reply → Option String
  | Reply.return_string (some _) => some "s"
  | Reply.return_string none => none
  | Reply.return_unit => some "()"
  | Reply.return_error _ _ => none

/-- What the caller of a method gets back.  An error is sent as it is.
`g_dbus_method_invocation_return_value` takes the tuple of the out arguments
of the method; a value of another type is refused and nothing is sent. -/
def caller_receives (method_name : String) : Option Reply → Option Reply
  | none => none
  | some (Reply.return_error code message) => some (Reply.return_error code message)
  | some r =>
    if r.value_type.isSome ∧ r.value_type = out_signature method_name then some r else none

/-! ## Auxiliary facts -/

theorem stop_killtimer_docs (s : Daemon) :
    (ev_daemon_stop_killtimer s).ev_daemon_docs = s.ev_daemon_docs := by
  unfold ev_daemon_stop_killtimer g_source_remove
  by_cases h : s.kill_timer_id ≠ 0 <;> simp [h]

theorem stop_killtimer_id (s : Daemon) :
    (ev_daemon_stop_killtimer s).kill_timer_id = 0 := by
  unfold ev_daemon_stop_killtimer
  rfl

theorem stop_killtimer_loop (s : Daemon) :
    (ev_daemon_stop_killtimer s).loop_running = s.loop_running := by
  unfold ev_daemon_stop_killtimer g_source_remove
  by_cases h : s.kill_timer_id ≠ 0 <;> simp [h]

theorem stop_killtimer_cancels (s : Daemon) (h : s.kill_timer_id ≠ 0) :
    ∀ t ∈ (ev_daemon_stop_killtimer s).timeouts, t.id ≠ s.kill_timer_id := by
  intro t ht
  unfold ev_daemon_stop_killtimer g_source_remove at ht
  simp [h] at ht
  exact ht.2

theorem maybe_start_of_ne_nil {s : Daemon} (h : s.ev_daemon_docs ≠ []) :
    ev_daemon_maybe_start_killtimer s = ev_daemon_stop_killtimer s := by
  simp [ev_daemon_maybe_start_killtimer, stop_killtimer_docs, h]

theorem maybe_start_of_nil {s : Daemon} (h : s.ev_daemon_docs = []) :
    ev_daemon_maybe_start_killtimer s =
      { (g_timeout_add_seconds (ev_daemon_stop_killtimer s) DAEMON_TIMEOUT).2 with
          kill_timer_id := (ev_daemon_stop_killtimer s).last_source_id + 1 } := by
  simp [ev_daemon_maybe_start_killtimer, stop_killtimer_docs, h, g_timeout_add_seconds]

theorem maybe_start_docs (s : Daemon) :
    (ev_daemon_maybe_start_killtimer s).ev_daemon_docs = s.ev_daemon_docs := by
  by_cases h : s.ev_daemon_docs = []
  · rw [maybe_start_of_nil h]
    simp [g_timeout_add_seconds, stop_killtimer_docs]
  · rw [maybe_start_of_ne_nil h]
    exact stop_killtimer_docs s

theorem maybe_start_loop (s : Daemon) :
    (ev_daemon_maybe_start_killtimer s).loop_running = s.loop_running := by
  by_cases h : s.ev_daemon_docs = []
  · rw [maybe_start_of_nil h]
    simp [g_timeout_add_seconds, stop_killtimer_loop]
  · rw [maybe_start_of_ne_nil h]
    exact stop_killtimer_loop s

/-- After `ev_daemon_maybe_start_killtimer` the timer is armed exactly when the
registry is empty. -/
theorem maybe_start_armed_iff (s : Daemon) :
    timer_armed (ev_daemon_maybe_start_killtimer s) ↔ s.ev_daemon_docs = [] := by
  unfold timer_armed
  by_cases h : s.ev_daemon_docs = []
  · rw [maybe_start_of_nil h]
    simp [h]
  · rw [maybe_start_of_ne_nil h]
    simp [h, stop_killtimer_id]

theorem ev_doc_free_docs (s : Daemon) (doc : EvDoc) :
    (ev_doc_free s doc).ev_daemon_docs = s.ev_daemon_docs := rfl

theorem ev_doc_free_loop (s : Daemon) (doc : EvDoc) :
    (ev_doc_free s doc).loop_running = s.loop_running := rfl

/-- A document found by `ev_daemon_find_doc` is in the list and has the uri. -/
theorem find_doc_some {docs : List EvDoc} {uri : String} {doc : EvDoc}
    (h : ev_daemon_find_doc docs uri = some doc) : doc ∈ docs ∧ doc.uri = uri := by
  induction docs with
  | nil => simp [ev_daemon_find_doc] at h
  | cons d l ih =>
    unfold ev_daemon_find_doc at h
    by_cases hd : d.uri = uri
    · simp [hd] at h
      subst h
      exact ⟨List.mem_cons_self _ _, hd⟩
    · simp [hd] at h
      exact ⟨List.mem_cons_of_mem _ (ih h).1, (ih h).2⟩

/-- The lookup fails exactly when no document has the uri. -/
theorem find_doc_none {docs : List EvDoc} {uri : String} :
    ev_daemon_find_doc docs uri = none ↔ ∀ d ∈ docs, d.uri ≠ uri := by
  induction docs with
  | nil => simp [ev_daemon_find_doc]
  | cons d l ih =>
    unfold ev_daemon_find_doc
    by_cases hd : d.uri = uri
    · simp [hd]
    · simp [hd, ih]

/-- A `RegisterDocument` call for a uri that is already registered. -/
theorem RegisterDocument_found {s : Daemon} {uri : String} {doc : EvDoc} (sender : String)
    (h : ev_daemon_find_doc s.ev_daemon_docs uri = some doc) :
    RegisterDocument s sender uri = (s, some (Reply.return_string (some doc.dbus_name))) := by
  simp [RegisterDocument, method_call_cb, h]

/-- A `RegisterDocument` call for a uri that is not registered. -/
theorem RegisterDocument_absent {s : Daemon} {uri : String} (sender : String)
    (h : ev_daemon_find_doc s.ev_daemon_docs uri = none) :
    RegisterDocument s sender uri =
      ({ (g_bus_watch_name (ev_daemon_stop_killtimer s) sender).2 with
          ev_daemon_docs :=
            ⟨sender, uri, (ev_daemon_stop_killtimer s).last_watch_id + 1⟩ ::
              (ev_daemon_stop_killtimer s).ev_daemon_docs },
       some (Reply.return_string none)) := by
  simp [RegisterDocument, method_call_cb, h, g_bus_watch_name]

theorem RegisterDocument_absent_docs {s : Daemon} {uri : String} (sender : String)
    (h : ev_daemon_find_doc s.ev_daemon_docs uri = none) :
    (RegisterDocument s sender uri).1.ev_daemon_docs =
      ⟨sender, uri, (ev_daemon_stop_killtimer s).last_watch_id + 1⟩ :: s.ev_daemon_docs := by
  rw [RegisterDocument_absent sender h]
  simp [stop_killtimer_docs]

theorem RegisterDocument_absent_id {s : Daemon} {uri : String} (sender : String)
    (h : ev_daemon_find_doc s.ev_daemon_docs uri = none) :
    (RegisterDocument s sender uri).1.kill_timer_id = 0 := by
  rw [RegisterDocument_absent sender h]
  simp [g_bus_watch_name, stop_killtimer_id]

theorem RegisterDocument_absent_timeouts {s : Daemon} {uri : String} (sender : String)
    (h : ev_daemon_find_doc s.ev_daemon_docs uri = none) :
    (RegisterDocument s sender uri).1.timeouts = (ev_daemon_stop_killtimer s).timeouts := by
  rw [RegisterDocument_absent sender h]
  simp [g_bus_watch_name]

/-- An `UnregisterDocument` call for a uri that is not registered. -/
theorem UnregisterDocument_absent {s : Daemon} {uri : String} (sender : String)
    (h : ev_daemon_find_doc s.ev_daemon_docs uri = none) :
    UnregisterDocument s sender uri =
      (s, some (Reply.return_error GDBusError.INVALID_ARGS "URI not registered")) := by
  simp [UnregisterDocument, method_call_cb, h, EV_DBUS_DAEMON_INTERFACE_NAME]

/-- An `UnregisterDocument` call from somebody who is not the owner. -/
theorem UnregisterDocument_other {s : Daemon} {sender uri : String} {doc : EvDoc}
    (h : ev_daemon_find_doc s.ev_daemon_docs uri = some doc) (hne : doc.dbus_name ≠ sender) :
    UnregisterDocument s sender uri =
      (s, some (Reply.return_error GDBusError.BAD_ADDRESS "Only owner can call this method")) := by
  simp [UnregisterDocument, method_call_cb, h, hne, EV_DBUS_DAEMON_INTERFACE_NAME]

/-- An `UnregisterDocument` call from the owner. -/
theorem UnregisterDocument_owner {s : Daemon} {sender uri : String} {doc : EvDoc}
    (h : ev_daemon_find_doc s.ev_daemon_docs uri = some doc) (heq : doc.dbus_name = sender) :
    UnregisterDocument s sender uri =
      (ev_daemon_maybe_start_killtimer
         (ev_doc_free { s with ev_daemon_docs := g_list_remove s.ev_daemon_docs doc } doc),
       some Reply.return_unit) := by
  simp [UnregisterDocument, method_call_cb, h, heq, EV_DBUS_DAEMON_INTERFACE_NAME]


/-- A uri absent from the list stays absent from the list in front of which a
document with another uri is put. -/
theorem find_doc_cons_ne {docs : List EvDoc} {uri : String} (d : EvDoc) (hd : d.uri ≠ uri)
    (h : ev_daemon_find_doc docs uri = none) : ev_daemon_find_doc (d :: docs) uri = none := by
  simp [ev_daemon_find_doc, hd, h]

/-- Registering pairwise distinct, unregistered uris adds one document each. -/
theorem register_all_length (calls : List (String × String)) :
    ∀ s : Daemon, (calls.map Prod.snd).Nodup →
      (∀ c ∈ calls, ev_daemon_find_doc s.ev_daemon_docs c.2 = none) →
      (register_all s calls).ev_daemon_docs.length = s.ev_daemon_docs.length + calls.length := by
  induction calls with
  | nil => intro s _ _; rfl
  | cons c rest ih =>
    intro s hnd habs
    have hc : ev_daemon_find_doc s.ev_daemon_docs c.2 = none := habs c (List.mem_cons_self _ _)
    have hnd2 : c.2 ∉ rest.map Prod.snd ∧ (rest.map Prod.snd).Nodup := by
      simpa using hnd
    have hstep : register_all s (c :: rest) = register_all (RegisterDocument s c.1 c.2).1 rest := rfl
    rw [hstep, ih _ hnd2.2]
    · rw [RegisterDocument_absent_docs c.1 hc]
      simp only [List.length_cons]
      omega
    · intro c2 hc2
      rw [RegisterDocument_absent_docs c.1 hc]
      apply find_doc_cons_ne
      · intro heq
        exact hnd2.1 (List.mem_map.mpr ⟨c2, hc2, heq.symm⟩)
      · exact habs c2 (List.mem_cons_of_mem _ hc2)

/-- The node `g_list_remove` drops for a document returned by
`ev_daemon_find_doc` is the node the lookup stopped at: no earlier node has
the uri, and the list around it is kept as it is. -/
theorem g_list_remove_find {docs : List EvDoc} {uri : String} {doc : EvDoc}
    (h : ev_daemon_find_doc docs uri = some doc) :
    ∃ l1 l2, docs = l1 ++ doc :: l2 ∧ (∀ d ∈ l1, d.uri ≠ uri) ∧
      g_list_remove docs doc = l1 ++ l2 := by
  induction docs with
  | nil => simp [ev_daemon_find_doc] at h
  | cons d l ih =>
    unfold ev_daemon_find_doc at h
    by_cases hd : d.uri = uri
    · simp [hd] at h
      subst h
      exact ⟨[], l, rfl, by simp, by simp [g_list_remove]⟩
    · simp [hd] at h
      obtain ⟨l1, l2, hl, hl1, hrm⟩ := ih h
      have hne : d ≠ doc := by
        intro heq
        exact hd (heq ▸ (find_doc_some h).2)
      refine ⟨d :: l1, l2, by simp [hl], ?_, ?_⟩
      · intro e he
        rcases List.mem_cons.mp he with rfl | he
        · exact hd
        · exact hl1 e he
      · unfold g_list_remove at hrm ⊢
        rw [List.erase_cons_tail (by simpa using hne), hrm]
        rfl


/-! ### The loop of `name_vanished_cb` -/

/-- When the loop of `name_vanished_cb` deletes a node, it is the first one
owned by the name, and the list around it is kept as it is. -/
theorem name_vanished_scan_some {name : String} {docs : List EvDoc} :
    ∀ {doc : EvDoc} {rest : List EvDoc}, name_vanished_scan name docs = some (doc, rest) →
      ∃ l1 l2, docs = l1 ++ doc :: l2 ∧ rest = l1 ++ l2 ∧ doc.dbus_name = name ∧
        ∀ d ∈ l1, d.dbus_name ≠ name := by
  induction docs with
  | nil => intro doc rest h; simp [name_vanished_scan] at h
  | cons d l ih =>
    intro doc rest h
    unfold name_vanished_scan at h
    by_cases hd : d.dbus_name = name
    · simp [hd] at h
      obtain ⟨rfl, rfl⟩ := h
      exact ⟨[], l, rfl, rfl, hd, by simp⟩
    · simp [hd] at h
      obtain ⟨a, b, hab, rfl, rfl⟩ := h
      obtain ⟨l1, l2, hl, hr, hn, hl1⟩ := ih hab
      refine ⟨d :: l1, l2, by simp [hl], by simp [hr], hn, ?_⟩
      intro e he
      rcases List.mem_cons.mp he with rfl | he
      · exact hd
      · exact hl1 e he

/-- The loop of `name_vanished_cb` runs off the end exactly when the name owns
no document. -/
theorem name_vanished_scan_none {name : String} {docs : List EvDoc} :
    name_vanished_scan name docs = none ↔ ∀ d ∈ docs, d.dbus_name ≠ name := by
  induction docs with
  | nil => simp [name_vanished_scan]
  | cons d l ih =>
    unfold name_vanished_scan
    by_cases hd : d.dbus_name = name
    · simp [hd]
    · simp [hd, ih]

theorem name_vanished_cb_none {s : Daemon} {name : String}
    (h : name_vanished_scan name s.ev_daemon_docs = none) : name_vanished_cb s name = s := by
  simp [name_vanished_cb, h]

theorem name_vanished_cb_some {s : Daemon} {name : String} {doc : EvDoc} {rest : List EvDoc}
    (h : name_vanished_scan name s.ev_daemon_docs = some (doc, rest)) :
    name_vanished_cb s name =
      ev_daemon_maybe_start_killtimer (ev_doc_free { s with ev_daemon_docs := rest } doc) := by
  simp [name_vanished_cb, h]

theorem name_vanished_cb_some_docs {s : Daemon} {name : String} {doc : EvDoc}
    {rest : List EvDoc} (h : name_vanished_scan name s.ev_daemon_docs = some (doc, rest)) :
    (name_vanished_cb s name).ev_daemon_docs = rest := by
  rw [name_vanished_cb_some h, maybe_start_docs, ev_doc_free_docs]

theorem UnregisterDocument_owner_docs {s : Daemon} {sender uri : String} {doc : EvDoc}
    (h : ev_daemon_find_doc s.ev_daemon_docs uri = some doc) (heq : doc.dbus_name = sender) :
    (UnregisterDocument s sender uri).1.ev_daemon_docs = g_list_remove s.ev_daemon_docs doc := by
  rw [UnregisterDocument_owner h heq, maybe_start_docs, ev_doc_free_docs]

/-! ### What one event does to the registry list -/

/-- One event leaves the registry list alone, or puts one document with an
unregistered uri in front of it, or takes one node out of it. -/
theorem step_docs (s : Daemon) (e : Event) :
    (step s e).ev_daemon_docs = s.ev_daemon_docs ∨
    (∃ d, ev_daemon_find_doc s.ev_daemon_docs d.uri = none ∧
      (step s e).ev_daemon_docs = d :: s.ev_daemon_docs) ∨
    (∃ l1 d l2, s.ev_daemon_docs = l1 ++ d :: l2 ∧ (step s e).ev_daemon_docs = l1 ++ l2) := by
  cases e with
  | RegisterDocument sender uri =>
    simp only [step]
    cases h : ev_daemon_find_doc s.ev_daemon_docs uri with
    | some doc => left; rw [RegisterDocument_found sender h]
    | none =>
      right; left
      exact ⟨⟨sender, uri, (ev_daemon_stop_killtimer s).last_watch_id + 1⟩, h,
        RegisterDocument_absent_docs sender h⟩
  | UnregisterDocument sender uri =>
    simp only [step]
    cases h : ev_daemon_find_doc s.ev_daemon_docs uri with
    | none => left; rw [UnregisterDocument_absent sender h]
    | some doc =>
      by_cases ho : doc.dbus_name = sender
      · right; right
        obtain ⟨l1, l2, hl, _, hrm⟩ := g_list_remove_find h
        exact ⟨l1, doc, l2, hl, by rw [UnregisterDocument_owner_docs h ho, hrm]⟩
      · left; rw [UnregisterDocument_other h ho]
  | name_vanished name =>
    simp only [step]
    cases h : name_vanished_scan name s.ev_daemon_docs with
    | none => left; rw [name_vanished_cb_none h]
    | some r =>
      obtain ⟨doc, rest⟩ := r
      right; right
      obtain ⟨l1, l2, hl, hr, _, _⟩ := name_vanished_scan_some h
      exact ⟨l1, doc, l2, hl, by rw [name_vanished_cb_some_docs h, hr]⟩
  | name_acquired =>
    left
    simp only [step, name_acquired_cb, maybe_start_docs]
  | elapse seconds => left; rfl

/-! ### Reachable states -/

theorem run_append (s : Daemon) (evs : List Event) (e : Event) :
    run s (evs ++ [e]) = step (run s evs) e := by
  simp [run, List.foldl_append]

theorem reachable_init : Reachable Daemon.init := ⟨[], rfl⟩

theorem reachable_step {s : Daemon} (h : Reachable s) (e : Event) : Reachable (step s e) := by
  obtain ⟨evs, rfl⟩ := h
  exact ⟨evs ++ [e], run_append _ _ _⟩

/-- Induction over the reachable states. -/
theorem reachable_induction (P : Daemon → Prop) (h0 : P Daemon.init)
    (hstep : ∀ s e, Reachable s → P s → P (step s e)) : ∀ s, Reachable s → P s := by
  intro s ⟨evs, hs⟩
  subst hs
  induction evs using List.reverseRecOn with
  | nil => exact h0
  | append_singleton l e ih =>
    rw [run_append]
    exact hstep _ e ⟨l, rfl⟩ ih

/-- One event keeps the uris of the registry pairwise distinct. -/
theorem step_unique_keys (s : Daemon) (e : Event) (h : unique_keys s) :
    unique_keys (step s e) := by
  unfold unique_keys at h ⊢
  rcases step_docs s e with h1 | ⟨d, hd, h1⟩ | ⟨l1, d, l2, hl, h1⟩
  · rw [h1]; exact h
  · rw [h1, List.map_cons, List.nodup_cons]
    refine ⟨?_, h⟩
    intro hmem
    obtain ⟨d2, hd2, heq⟩ := List.mem_map.mp hmem
    exact (find_doc_none.mp hd) d2 hd2 heq
  · rw [h1]
    rw [hl] at h
    refine h.sublist (List.Sublist.map _ ?_)
    exact List.Sublist.append (List.Sublist.refl l1) (List.sublist_cons_self d l2)

/-- In every reachable state the uris of the registry are pairwise distinct. -/
theorem reachable_unique_keys : ∀ s, Reachable s → unique_keys s :=
  reachable_induction unique_keys (by decide) (fun s e _ h => step_unique_keys s e h)


/-! ### The idle timer -/

theorem timer_consistent_congr {s1 s2 : Daemon} (hid : s2.kill_timer_id = s1.kill_timer_id)
    (hto : s2.timeouts = s1.timeouts) (h : timer_consistent s1) : timer_consistent s2 := by
  unfold timer_consistent at h ⊢
  rw [hid, hto]
  exact h

theorem stop_killtimer_timeouts {s : Daemon} (h : timer_consistent s) :
    (ev_daemon_stop_killtimer s).timeouts = [] := by
  unfold ev_daemon_stop_killtimer g_source_remove
  rcases h with ⟨h0, ht⟩ | ⟨hne, deadline, ht⟩
  · simp [h0, ht]
  · simp [hne, ht]

theorem stop_killtimer_consistent {s : Daemon} (h : timer_consistent s) :
    timer_consistent (ev_daemon_stop_killtimer s) :=
  Or.inl ⟨stop_killtimer_id s, stop_killtimer_timeouts h⟩

theorem maybe_start_consistent {s : Daemon} (h : timer_consistent s) :
    timer_consistent (ev_daemon_maybe_start_killtimer s) := by
  by_cases hd : s.ev_daemon_docs = []
  · rw [maybe_start_of_nil hd]
    right
    refine ⟨by simp, (ev_daemon_stop_killtimer s).now + DAEMON_TIMEOUT, ?_⟩
    simp [g_timeout_add_seconds, stop_killtimer_timeouts h]
  · rw [maybe_start_of_ne_nil hd]
    exact stop_killtimer_consistent h

/-- One event keeps the pending sources in agreement with `kill_timer_id`. -/
theorem step_timer_consistent (s : Daemon) (e : Event) (h : timer_consistent s) :
    timer_consistent (step s e) := by
  cases e with
  | RegisterDocument sender uri =>
    simp only [step]
    cases hf : ev_daemon_find_doc s.ev_daemon_docs uri with
    | some doc => rw [RegisterDocument_found sender hf]; exact h
    | none =>
      rw [RegisterDocument_absent sender hf]
      exact timer_consistent_congr rfl rfl (stop_killtimer_consistent h)
  | UnregisterDocument sender uri =>
    simp only [step]
    cases hf : ev_daemon_find_doc s.ev_daemon_docs uri with
    | none => rw [UnregisterDocument_absent sender hf]; exact h
    | some doc =>
      by_cases ho : doc.dbus_name = sender
      · rw [UnregisterDocument_owner hf ho]
        exact maybe_start_consistent (timer_consistent_congr rfl rfl h)
      · rw [UnregisterDocument_other hf ho]; exact h
  | name_vanished name =>
    simp only [step]
    cases hs : name_vanished_scan name s.ev_daemon_docs with
    | none => rw [name_vanished_cb_none hs]; exact h
    | some r =>
      obtain ⟨doc, rest⟩ := r
      rw [name_vanished_cb_some hs]
      exact maybe_start_consistent (timer_consistent_congr rfl rfl h)
  | name_acquired => exact maybe_start_consistent h
  | elapse seconds => exact timer_consistent_congr rfl rfl h

/-- In every reachable state the pending sources agree with `kill_timer_id`. -/
theorem reachable_timer_consistent : ∀ s, Reachable s → timer_consistent s :=
  reachable_induction timer_consistent (Or.inl ⟨rfl, rfl⟩)
    (fun s e _ h => step_timer_consistent s e h)

/-- One event keeps the timer unarmed while documents are registered. -/
theorem step_armed_empty (s : Daemon) (e : Event)
    (h : timer_armed s → s.ev_daemon_docs = []) :
    timer_armed (step s e) → (step s e).ev_daemon_docs = [] := by
  cases e with
  | RegisterDocument sender uri =>
    simp only [step]
    cases hf : ev_daemon_find_doc s.ev_daemon_docs uri with
    | some doc => rw [RegisterDocument_found sender hf]; exact h
    | none =>
      intro ha
      unfold timer_armed at ha
      rw [RegisterDocument_absent_id sender hf] at ha
      exact absurd rfl ha
  | UnregisterDocument sender uri =>
    simp only [step]
    cases hf : ev_daemon_find_doc s.ev_daemon_docs uri with
    | none => rw [UnregisterDocument_absent sender hf]; exact h
    | some doc =>
      by_cases ho : doc.dbus_name = sender
      · rw [UnregisterDocument_owner hf ho]
        intro ha
        rw [maybe_start_docs]
        exact (maybe_start_armed_iff _).mp ha
      · rw [UnregisterDocument_other hf ho]; exact h
  | name_vanished name =>
    simp only [step]
    cases hs : name_vanished_scan name s.ev_daemon_docs with
    | none => rw [name_vanished_cb_none hs]; exact h
    | some r =>
      obtain ⟨doc, rest⟩ := r
      rw [name_vanished_cb_some hs]
      intro ha
      rw [maybe_start_docs]
      exact (maybe_start_armed_iff _).mp ha
  | name_acquired =>
    simp only [step, name_acquired_cb]
    intro ha
    rw [maybe_start_docs]
    exact (maybe_start_armed_iff _).mp ha
  | elapse seconds => exact h

/-- In every reachable state an armed timer means an empty registry. -/
theorem reachable_armed_empty :
    ∀ s, Reachable s → timer_armed s → s.ev_daemon_docs = [] :=
  reachable_induction (fun s => timer_armed s → s.ev_daemon_docs = [])
    (fun ha => absurd rfl ha) (fun s e _ h => step_armed_empty s e h)

/-- With pairwise distinct uris, the uri of a node occurs nowhere else in the list. -/
theorem unique_keys_split {l1 l2 : List EvDoc} {doc : EvDoc}
    (h : ((l1 ++ doc :: l2).map EvDoc.uri).Nodup) : ∀ d ∈ l1 ++ l2, d.uri ≠ doc.uri := by
  rw [List.map_append, List.map_cons] at h
  have h2 := List.nodup_middle.mp h
  rw [List.nodup_cons] at h2
  intro d hd heq
  apply h2.1
  rw [← List.map_append]
  exact List.mem_map.mpr ⟨d, hd, heq⟩


/-! ### Name-vanished notifications -/

/-- One notification takes the first document of the name out of the
documents the name owns. -/
theorem name_vanished_cb_owned (s : Daemon) (n : String) :
    owned_by n (name_vanished_cb s n).ev_daemon_docs = (owned_by n s.ev_daemon_docs).tail := by
  cases hs : name_vanished_scan n s.ev_daemon_docs with
  | none =>
    rw [name_vanished_cb_none hs]
    have hnone : owned_by n s.ev_daemon_docs = [] := by
      unfold owned_by
      rw [List.filter_eq_nil_iff]
      intro d hd
      simpa using (name_vanished_scan_none.mp hs) d hd
    rw [hnone]; rfl
  | some r =>
    obtain ⟨doc, rest⟩ := r
    obtain ⟨l1, l2, hl, hr, hn, hl1⟩ := name_vanished_scan_some hs
    have h1 : owned_by n l1 = [] := by
      unfold owned_by
      rw [List.filter_eq_nil_iff]
      intro d hd
      simpa using hl1 d hd
    unfold owned_by at h1 ⊢
    rw [name_vanished_cb_some_docs hs, hr, hl, List.filter_append, List.filter_append, h1,
      List.filter_cons]
    simp [hn]

/-- One notification leaves a sublist of the registry. -/
theorem name_vanished_cb_sublist (s : Daemon) (n : String) :
    (name_vanished_cb s n).ev_daemon_docs.Sublist s.ev_daemon_docs := by
  cases hs : name_vanished_scan n s.ev_daemon_docs with
  | none => rw [name_vanished_cb_none hs]
  | some r =>
    obtain ⟨doc, rest⟩ := r
    obtain ⟨l1, l2, hl, hr, _, _⟩ := name_vanished_scan_some hs
    rw [name_vanished_cb_some_docs hs, hr, hl]
    exact List.Sublist.append (List.Sublist.refl l1) (List.sublist_cons_self doc l2)

theorem name_vanished_times_sublist (n : String) (k : Nat) :
    ∀ s : Daemon, (name_vanished_times n k s).ev_daemon_docs.Sublist s.ev_daemon_docs := by
  induction k with
  | zero => intro s; exact List.Sublist.refl _
  | succ k ih =>
    intro s
    exact (ih (name_vanished_cb s n)).trans (name_vanished_cb_sublist s n)

/-- None of the registry events touches the running flag of the main loop. -/
theorem step_loop_running (s : Daemon) (e : Event) :
    (step s e).loop_running = s.loop_running := by
  cases e with
  | RegisterDocument sender uri =>
    simp only [step]
    cases hf : ev_daemon_find_doc s.ev_daemon_docs uri with
    | some doc => rw [RegisterDocument_found sender hf]
    | none =>
      rw [RegisterDocument_absent sender hf]
      exact stop_killtimer_loop s
  | UnregisterDocument sender uri =>
    simp only [step]
    cases hf : ev_daemon_find_doc s.ev_daemon_docs uri with
    | none => rw [UnregisterDocument_absent sender hf]
    | some doc =>
      by_cases ho : doc.dbus_name = sender
      · rw [UnregisterDocument_owner hf ho, maybe_start_loop, ev_doc_free_loop]
      · rw [UnregisterDocument_other hf ho]
  | name_vanished name =>
    simp only [step]
    cases hs : name_vanished_scan name s.ev_daemon_docs with
    | none => rw [name_vanished_cb_none hs]
    | some r =>
      obtain ⟨doc, rest⟩ := r
      rw [name_vanished_cb_some hs, maybe_start_loop, ev_doc_free_loop]
  | name_acquired => exact maybe_start_loop s
  | elapse seconds => rfl

/-- A running loop that is handed registry events and then the name-lost
notification returns at that notification. -/
theorem main_loop_iterate_name_lost (pre : List Event) (post : List LoopEvent) :
    ∀ s : Daemon, s.loop_running = true →
      (main_loop_iterate s (pre.map LoopEvent.daemon ++ LoopEvent.name_lost :: post)).isSome := by
  induction pre with
  | nil =>
    intro s hs
    simp [main_loop_iterate, dispatch, name_lost_cb, hs]
  | cons e pre ih =>
    intro s hs
    have hrun : (step s e).loop_running = true := by rw [step_loop_running, hs]
    simp only [List.map_cons, List.cons_append, main_loop_iterate, dispatch, hrun, if_true]
    exact ih (step s e) hrun


/-- A notification for a name that owns no document changes nothing. -/
theorem name_vanished_cb_of_not_owner {s : Daemon} {n : String}
    (h : ∀ d ∈ s.ev_daemon_docs, d.dbus_name ≠ n) : name_vanished_cb s n = s :=
  name_vanished_cb_none (name_vanished_scan_none.mpr h)

/-- A notification for a name that owns a document takes out the first node
of that name, keeps the rest in order, and then arms the timer exactly when
the list has become empty. -/
theorem name_vanished_cb_of_owner {s : Daemon} {n : String}
    (h : ∃ d ∈ s.ev_daemon_docs, d.dbus_name = n) :
    ∃ l1 doc l2, s.ev_daemon_docs = l1 ++ doc :: l2 ∧ doc.dbus_name = n ∧
      (∀ d ∈ l1, d.dbus_name ≠ n) ∧
      (name_vanished_cb s n).ev_daemon_docs = l1 ++ l2 ∧
      (timer_armed (name_vanished_cb s n) ↔ (name_vanished_cb s n).ev_daemon_docs = []) := by
  cases hs : name_vanished_scan n s.ev_daemon_docs with
  | none =>
    obtain ⟨d, hd, hn⟩ := h
    exact absurd hn ((name_vanished_scan_none.mp hs) d hd)
  | some r =>
    obtain ⟨doc, rest⟩ := r
    obtain ⟨l1, l2, hl, hr, hn, hl1⟩ := name_vanished_scan_some hs
    refine ⟨l1, doc, l2, hl, hn, hl1, by rw [name_vanished_cb_some_docs hs, hr], ?_⟩
    rw [name_vanished_cb_some hs, maybe_start_docs]
    exact maybe_start_armed_iff _


/-! ### More on the idle timer -/

theorem stop_killtimer_last_source (s : Daemon) :
    (ev_daemon_stop_killtimer s).last_source_id = s.last_source_id := by
  unfold ev_daemon_stop_killtimer g_source_remove
  by_cases h : s.kill_timer_id ≠ 0 <;> simp [h]

theorem stop_killtimer_now (s : Daemon) : (ev_daemon_stop_killtimer s).now = s.now := by
  unfold ev_daemon_stop_killtimer g_source_remove
  by_cases h : s.kill_timer_id ≠ 0 <;> simp [h]

/-- The id that `ev_daemon_maybe_start_killtimer` leaves in `kill_timer_id` is
zero or the id of the source it has just created. -/
theorem maybe_start_id_le (s : Daemon) :
    (ev_daemon_maybe_start_killtimer s).kill_timer_id ≤
      (ev_daemon_maybe_start_killtimer s).last_source_id := by
  by_cases h : s.ev_daemon_docs = []
  · rw [maybe_start_of_nil h]
    simp [g_timeout_add_seconds]
  · rw [maybe_start_of_ne_nil h, stop_killtimer_id]
    exact Nat.zero_le _

/-- With an empty registry `ev_daemon_maybe_start_killtimer` leaves one pending
source, new, due `DAEMON_TIMEOUT` seconds from now, and named by
`kill_timer_id`. -/
theorem maybe_start_rearm {s : Daemon} (hc : timer_consistent s)
    (hd : s.ev_daemon_docs = []) :
    (ev_daemon_maybe_start_killtimer s).kill_timer_id = s.last_source_id + 1 ∧
    (ev_daemon_maybe_start_killtimer s).timeouts =
      [⟨s.last_source_id + 1, s.now + DAEMON_TIMEOUT⟩] := by
  rw [maybe_start_of_nil hd]
  simp [g_timeout_add_seconds, stop_killtimer_timeouts hc, stop_killtimer_last_source,
    stop_killtimer_now]

/-- One event keeps `kill_timer_id` among the ids handed out so far. -/
theorem step_kill_timer_le (s : Daemon) (e : Event)
    (h : s.kill_timer_id ≤ s.last_source_id) :
    (step s e).kill_timer_id ≤ (step s e).last_source_id := by
  cases e with
  | RegisterDocument sender uri =>
    simp only [step]
    cases hf : ev_daemon_find_doc s.ev_daemon_docs uri with
    | some doc => rw [RegisterDocument_found sender hf]; exact h
    | none => rw [RegisterDocument_absent_id sender hf]; exact Nat.zero_le _
  | UnregisterDocument sender uri =>
    simp only [step]
    cases hf : ev_daemon_find_doc s.ev_daemon_docs uri with
    | none => rw [UnregisterDocument_absent sender hf]; exact h
    | some doc =>
      by_cases ho : doc.dbus_name = sender
      · rw [UnregisterDocument_owner hf ho]; exact maybe_start_id_le _
      · rw [UnregisterDocument_other hf ho]; exact h
  | name_vanished name =>
    simp only [step]
    cases hs : name_vanished_scan name s.ev_daemon_docs with
    | none => rw [name_vanished_cb_none hs]; exact h
    | some r =>
      obtain ⟨doc, rest⟩ := r
      rw [name_vanished_cb_some hs]; exact maybe_start_id_le _
  | name_acquired => exact maybe_start_id_le s
  | elapse seconds => exact h

/-- In every reachable state `kill_timer_id` is among the ids handed out. -/
theorem reachable_kill_timer_le : ∀ s, Reachable s → s.kill_timer_id ≤ s.last_source_id :=
  reachable_induction (fun s => s.kill_timer_id ≤ s.last_source_id) (Nat.le_refl _)
    (fun s e _ h => step_kill_timer_le s e h)

/-- One event keeps the timer armed exactly on an empty registry, once that
is so. -/
theorem step_armed_iff_empty (s : Daemon) (e : Event)
    (h : timer_armed s ↔ s.ev_daemon_docs = []) :
    timer_armed (step s e) ↔ (step s e).ev_daemon_docs = [] := by
  cases e with
  | RegisterDocument sender uri =>
    simp only [step]
    cases hf : ev_daemon_find_doc s.ev_daemon_docs uri with
    | some doc => rw [RegisterDocument_found sender hf]; exact h
    | none =>
      unfold timer_armed
      rw [RegisterDocument_absent_id sender hf, RegisterDocument_absent_docs sender hf]
      simp
  | UnregisterDocument sender uri =>
    simp only [step]
    cases hf : ev_daemon_find_doc s.ev_daemon_docs uri with
    | none => rw [UnregisterDocument_absent sender hf]; exact h
    | some doc =>
      by_cases ho : doc.dbus_name = sender
      · rw [UnregisterDocument_owner hf ho, maybe_start_docs]
        exact maybe_start_armed_iff _
      · rw [UnregisterDocument_other hf ho]; exact h
  | name_vanished name =>
    simp only [step]
    cases hs : name_vanished_scan name s.ev_daemon_docs with
    | none => rw [name_vanished_cb_none hs]; exact h
    | some r =>
      obtain ⟨doc, rest⟩ := r
      rw [name_vanished_cb_some hs, maybe_start_docs]
      exact maybe_start_armed_iff _
  | name_acquired =>
    simp only [step, name_acquired_cb]
    rw [maybe_start_docs]
    exact maybe_start_armed_iff _
  | elapse seconds => exact h

/-- Once `name_acquired_cb` has run, the timer is armed exactly when the
registry is empty. -/
theorem run_armed_iff_empty_of_acquired (evs : List Event) :
    Event.name_acquired ∈ evs →
      (timer_armed (run Daemon.init evs) ↔ (run Daemon.init evs).ev_daemon_docs = []) := by
  induction evs using List.reverseRecOn with
  | nil => intro h; simp at h
  | append_singleton l e ih =>
    intro hmem
    rw [run_append]
    by_cases he : e = Event.name_acquired
    · subst he
      simp only [step, name_acquired_cb]
      rw [maybe_start_docs]
      exact maybe_start_armed_iff _
    · apply step_armed_iff_empty
      apply ih
      rcases List.mem_append.mp hmem with h1 | h1
      · exact h1
      · simp at h1
        exact absurd h1.symm he


/-! ### More on the lookup -/

/-- The lookup is the library search for the first element with the uri. -/
theorem find_doc_eq_find (docs : List EvDoc) (uri : String) :
    ev_daemon_find_doc docs uri = docs.find? (fun d => d.uri = uri) := by
  induction docs with
  | nil => rfl
  | cons d l ih =>
    unfold ev_daemon_find_doc
    by_cases hd : d.uri = uri
    · simp [hd]
    · simp [hd, ih]

theorem find_doc_append (l1 l2 : List EvDoc) (uri : String) :
    ev_daemon_find_doc (l1 ++ l2) uri =
      (ev_daemon_find_doc l1 uri).or (ev_daemon_find_doc l2 uri) := by
  simp only [find_doc_eq_find, List.find?_append]

/-- Taking out a node with another uri does not change what the lookup of a
uri returns. -/
theorem find_doc_remove_other (l1 l2 : List EvDoc) {x : EvDoc} {uri : String}
    (hx : x.uri ≠ uri) :
    ev_daemon_find_doc (l1 ++ x :: l2) uri = ev_daemon_find_doc (l1 ++ l2) uri := by
  rw [find_doc_append, find_doc_append]
  congr 1
  simp [ev_daemon_find_doc, hx]

/-- The lookup returns a document exactly when that document sits at the first
position, in list order, that has the uri. -/
theorem find_doc_some_iff {docs : List EvDoc} {uri : String} {doc : EvDoc} :
    ev_daemon_find_doc docs uri = some doc ↔
      ∃ l1 l2, docs = l1 ++ doc :: l2 ∧ doc.uri = uri ∧ ∀ d ∈ l1, d.uri ≠ uri := by
  constructor
  · intro h
    obtain ⟨l1, l2, hl, hl1, _⟩ := g_list_remove_find h
    exact ⟨l1, l2, hl, (find_doc_some h).2, hl1⟩
  · rintro ⟨l1, l2, hl, hu, hl1⟩
    rw [hl, find_doc_append, find_doc_none.mpr hl1]
    simp [ev_daemon_find_doc, hu]

/-- With pairwise distinct uris one event does not replace the document a uri
is bound to: if the uri is found before and after, it is the same document. -/
theorem step_find_of_unique {s : Daemon} (e : Event) {uri : String} {d d2 : EvDoc}
    (hu : unique_keys s) (hb : ev_daemon_find_doc s.ev_daemon_docs uri = some d)
    (ha : ev_daemon_find_doc (step s e).ev_daemon_docs uri = some d2) : d2 = d := by
  rcases step_docs s e with h1 | ⟨x, hx, h1⟩ | ⟨l1, x, l2, hl, h1⟩
  · rw [h1, hb] at ha
    exact (Option.some.inj ha).symm
  · have hne : x.uri ≠ uri := by
      intro heq
      rw [heq, hb] at hx
      exact Option.noConfusion hx
    rw [h1] at ha
    simp only [ev_daemon_find_doc, hne, if_false] at ha
    rw [hb] at ha
    exact (Option.some.inj ha).symm
  · rw [h1] at ha
    by_cases hxu : x.uri = uri
    · unfold unique_keys at hu
      rw [hl] at hu
      have hsplit := unique_keys_split hu
      rw [hxu] at hsplit
      rw [find_doc_none.mpr hsplit] at ha
      exact Option.noConfusion ha
    · rw [hl, find_doc_remove_other l1 l2 hxu, ha] at hb
      exact Option.some.inj hb

/-- A document leaves the registry only through `UnregisterDocument` for its
uri from its owner or through a name-vanished notification for its owner. -/
theorem step_removed_by_owner {s : Daemon} {e : Event} {d : EvDoc}
    (hd : d ∈ s.ev_daemon_docs) (hgone : d ∉ (step s e).ev_daemon_docs) :
    e = Event.UnregisterDocument d.dbus_name d.uri ∨ e = Event.name_vanished d.dbus_name := by
  have hsplit : ∀ {l1 l2 : List EvDoc} {doc : EvDoc}, s.ev_daemon_docs = l1 ++ doc :: l2 →
      (step s e).ev_daemon_docs = l1 ++ l2 → d = doc := by
    intro l1 l2 doc hl h1
    rw [hl] at hd
    rw [h1] at hgone
    simp only [List.mem_append, List.mem_cons] at hd hgone
    rcases hd with h | h | h
    · exact absurd (Or.inl h) hgone
    · exact h
    · exact absurd (Or.inr h) hgone
  cases e with
  | RegisterDocument sender uri =>
    exfalso
    apply hgone
    simp only [step]
    cases hf : ev_daemon_find_doc s.ev_daemon_docs uri with
    | some doc => rw [RegisterDocument_found sender hf]; exact hd
    | none => rw [RegisterDocument_absent_docs sender hf]; exact List.mem_cons_of_mem _ hd
  | UnregisterDocument sender uri =>
    cases hf : ev_daemon_find_doc s.ev_daemon_docs uri with
    | none =>
      exfalso; apply hgone
      simp only [step]
      rw [UnregisterDocument_absent sender hf]; exact hd
    | some doc =>
      by_cases ho : doc.dbus_name = sender
      · left
        obtain ⟨l1, l2, hl, _, hrm⟩ := g_list_remove_find hf
        have hdoc : d = doc := hsplit hl (by
          simp only [step]
          rw [UnregisterDocument_owner_docs hf ho, hrm])
        rw [hdoc, ho, (find_doc_some hf).2]
      · exfalso; apply hgone
        simp only [step]
        rw [UnregisterDocument_other hf ho]; exact hd
  | name_vanished name =>
    cases hs : name_vanished_scan name s.ev_daemon_docs with
    | none =>
      exfalso; apply hgone
      simp only [step]
      rw [name_vanished_cb_none hs]; exact hd
    | some r =>
      obtain ⟨doc, rest⟩ := r
      right
      obtain ⟨l1, l2, hl, hr, hn, _⟩ := name_vanished_scan_some hs
      have hdoc : d = doc := hsplit hl (by
        simp only [step]
        rw [name_vanished_cb_some_docs hs, hr])
      rw [hdoc, hn]
  | name_acquired =>
    exfalso; apply hgone
    simp only [step, name_acquired_cb, maybe_start_docs]
    exact hd
  | elapse seconds => exact absurd hd hgone


/-- An event attributed to another identity than the owner of the document a
uri is bound to leaves the uri bound to that document. -/
theorem step_find_of_other {s : Daemon} {e : Event} {uri m : String} {d : EvDoc}
    (hb : ev_daemon_find_doc s.ev_daemon_docs uri = some d)
    (hm : event_identity e = some m) (hne : m ≠ d.dbus_name) :
    ev_daemon_find_doc (step s e).ev_daemon_docs uri = some d := by
  cases e with
  | RegisterDocument sender v =>
    simp only [step]
    cases hf : ev_daemon_find_doc s.ev_daemon_docs v with
    | some doc => rw [RegisterDocument_found sender hf]; exact hb
    | none =>
      have hv : v ≠ uri := by
        intro heq
        rw [heq, hb] at hf
        exact Option.noConfusion hf
      rw [RegisterDocument_absent_docs sender hf]
      simp only [ev_daemon_find_doc, hv, if_false]
      exact hb
  | UnregisterDocument sender v =>
    simp only [step]
    simp only [event_identity, Option.some.injEq] at hm
    cases hf : ev_daemon_find_doc s.ev_daemon_docs v with
    | none => rw [UnregisterDocument_absent sender hf]; exact hb
    | some doc =>
      by_cases ho : doc.dbus_name = sender
      · have hv : doc.uri ≠ uri := by
          intro heq
          rw [(find_doc_some hf).2] at heq
          rw [heq, hb] at hf
          have hdd : d = doc := Option.some.inj hf
          exact hne (by rw [hdd, ho, hm])
        obtain ⟨l1, l2, hl, _, hrm⟩ := g_list_remove_find hf
        rw [UnregisterDocument_owner_docs hf ho, hrm, ← find_doc_remove_other l1 l2 hv, ← hl]
        exact hb
      · rw [UnregisterDocument_other hf ho]; exact hb
  | name_vanished name =>
    simp only [step]
    simp only [event_identity, Option.some.injEq] at hm
    cases hs : name_vanished_scan name s.ev_daemon_docs with
    | none => rw [name_vanished_cb_none hs]; exact hb
    | some r =>
      obtain ⟨doc, rest⟩ := r
      obtain ⟨l1, l2, hl, hr, hn, _⟩ := name_vanished_scan_some hs
      rw [name_vanished_cb_some_docs hs, hr]
      by_cases hv : doc.uri = uri
      · rw [hl, find_doc_append] at hb
        rw [find_doc_append]
        cases h1 : ev_daemon_find_doc l1 uri with
        | none =>
          rw [h1] at hb
          simp [ev_daemon_find_doc, hv] at hb
          exact absurd (by rw [← hb, hn, hm]) hne
        | some d1 =>
          rw [h1] at hb
          simpa using hb
      · rw [← find_doc_remove_other l1 l2 hv, ← hl]
        exact hb
  | name_acquired => simp [event_identity] at hm
  | elapse seconds => simp [event_identity] at hm

/-! ## RegisterDocument -/

/-- C1 (the code departs from it): for a uri that is registered,
`method_call_cb` leaves the whole state as it was and takes the recorded
`dbus_name` as `owner`, but what it hands to
`g_dbus_method_invocation_return_value` is the bare value of
`g_variant_new_string`, of type `s`, where the reply signature of
`RegisterDocument` is the tuple `(s)`: the value is refused and the caller
receives no owner.  The `UnregisterDocument` branch hands over the tuple its
signature asks for, and its answer arrives. -/
theorem register_existing_reply_is_not_a_tuple :
    ev_daemon_find_doc
        (RegisterDocument Daemon.init ":1.1" "file:///a.pdf").1.ev_daemon_docs
        "file:///a.pdf" = some ⟨":1.1", "file:///a.pdf", 1⟩ ∧
    (RegisterDocument (RegisterDocument Daemon.init ":1.1" "file:///a.pdf").1
        ":1.2" "file:///a.pdf").1 = (RegisterDocument Daemon.init ":1.1" "file:///a.pdf").1 ∧
    (RegisterDocument (RegisterDocument Daemon.init ":1.1" "file:///a.pdf").1
        ":1.2" "file:///a.pdf").2 = some (Reply.return_string (some ":1.1")) ∧
    Reply.value_type (Reply.return_string (some ":1.1")) = some "s" ∧
    out_signature "RegisterDocument" = some "(s)" ∧
    caller_receives "RegisterDocument"
      (RegisterDocument (RegisterDocument Daemon.init ":1.1" "file:///a.pdf").1
        ":1.2" "file:///a.pdf").2 = none ∧
    caller_receives "UnregisterDocument"
      (UnregisterDocument (RegisterDocument Daemon.init ":1.1" "file:///a.pdf").1
        ":1.1" "file:///a.pdf").2 = some Reply.return_unit := by
  decide

/-- C2 (the code departs from it): for a uri that is not registered the
variable `owner` of `method_call_cb` keeps its initial value `NULL`, and that
is what is handed to `g_variant_new_string`; the reply does not carry the
empty string. -/
theorem register_new_reply_is_null :
    ev_daemon_find_doc Daemon.init.ev_daemon_docs "file:///a.pdf" = none ∧
    (RegisterDocument Daemon.init ":1.1" "file:///a.pdf").2 =
      some (Reply.return_string none) ∧
    (RegisterDocument Daemon.init ":1.1" "file:///a.pdf").2 ≠
      some (Reply.return_string (some "")) := by
  decide

/-- C3: for a uri that `ev_daemon_find_doc` does not find, `RegisterDocument`
from `sender` puts one new document, owned by `sender` and carrying the uri,
in front of the unchanged old list: the registry is one longer, the lookup of
the uri now returns that document, `kill_timer_id` is zero and the source it
named is no longer pending.  Consequently any run of calls with pairwise
distinct uris, none of them registered before, makes the registry longer by
the number of calls. -/
theorem register_new_adds_one_entry (s : Daemon) (sender uri : String)
    (h : ev_daemon_find_doc s.ev_daemon_docs uri = none) :
    (RegisterDocument s sender uri).1.ev_daemon_docs.length = s.ev_daemon_docs.length + 1 ∧
    (∃ doc, ev_daemon_find_doc (RegisterDocument s sender uri).1.ev_daemon_docs uri = some doc ∧
      doc.dbus_name = sender ∧ doc.uri = uri ∧
      (RegisterDocument s sender uri).1.ev_daemon_docs = doc :: s.ev_daemon_docs) ∧
    (∀ d ∈ s.ev_daemon_docs, d ∈ (RegisterDocument s sender uri).1.ev_daemon_docs) ∧
    (∀ v, v ≠ uri → ev_daemon_find_doc (RegisterDocument s sender uri).1.ev_daemon_docs v =
      ev_daemon_find_doc s.ev_daemon_docs v) ∧
    ¬ timer_armed (RegisterDocument s sender uri).1 ∧
    (s.kill_timer_id ≠ 0 →
      ∀ t ∈ (RegisterDocument s sender uri).1.timeouts, t.id ≠ s.kill_timer_id) ∧
    (∀ calls : List (String × String), (calls.map Prod.snd).Nodup →
      (∀ c ∈ calls, ev_daemon_find_doc s.ev_daemon_docs c.2 = none) →
      (register_all s calls).ev_daemon_docs.length = s.ev_daemon_docs.length + calls.length) := by
  have hdocs := RegisterDocument_absent_docs sender h
  refine ⟨?_, ?_, ?_, ?_, ?_, ?_, ?_⟩
  · rw [hdocs]; rfl
  · refine ⟨⟨sender, uri, (ev_daemon_stop_killtimer s).last_watch_id + 1⟩, ?_, rfl, rfl, hdocs⟩
    rw [hdocs]
    simp [ev_daemon_find_doc]
  · intro d hd
    rw [hdocs]
    exact List.mem_cons_of_mem _ hd
  · intro v hv
    rw [hdocs]
    simp [ev_daemon_find_doc, Ne.symm hv]
  · unfold timer_armed
    rw [RegisterDocument_absent_id sender h]
    simp
  · intro hk
    rw [RegisterDocument_absent_timeouts sender h]
    exact stop_killtimer_cancels s hk
  · intro calls hnd habs
    exact register_all_length calls s hnd habs

theorem register_new_adds_one_entry_witness :
    ev_daemon_find_doc (name_acquired_cb Daemon.init).ev_daemon_docs "file:///a.pdf" = none ∧
    (RegisterDocument (name_acquired_cb Daemon.init) ":1.1"
        "file:///a.pdf").1.ev_daemon_docs.length = 1 ∧
    ¬ timer_armed (RegisterDocument (name_acquired_cb Daemon.init) ":1.1" "file:///a.pdf").1 :=
  ⟨by decide,
   (register_new_adds_one_entry (name_acquired_cb Daemon.init) ":1.1" "file:///a.pdf"
      (by decide)).1,
   (register_new_adds_one_entry (name_acquired_cb Daemon.init) ":1.1" "file:///a.pdf"
      (by decide)).2.2.2.2.1⟩

/-! ## UnregisterDocument -/

/-- C4: when `ev_daemon_find_doc` finds a document whose `dbus_name` is not the
sender, `UnregisterDocument` answers with the error `G_DBUS_ERROR_BAD_ADDRESS`
("Only owner can call this method") and the state is unchanged: the registry,
the found document included, and `kill_timer_id` are as before. -/
theorem unregister_by_other_is_refused (s : Daemon) (sender uri : String) (doc : EvDoc)
    (h : ev_daemon_find_doc s.ev_daemon_docs uri = some doc) (hne : doc.dbus_name ≠ sender) :
    (UnregisterDocument s sender uri).2 =
      some (Reply.return_error GDBusError.BAD_ADDRESS "Only owner can call this method") ∧
    (UnregisterDocument s sender uri).1 = s ∧
    (UnregisterDocument s sender uri).1.ev_daemon_docs = s.ev_daemon_docs ∧
    (UnregisterDocument s sender uri).1.kill_timer_id = s.kill_timer_id ∧
    ev_daemon_find_doc (UnregisterDocument s sender uri).1.ev_daemon_docs uri = some doc := by
  rw [UnregisterDocument_other h hne]
  exact ⟨rfl, rfl, rfl, rfl, h⟩

theorem unregister_by_other_is_refused_witness :
    (UnregisterDocument (RegisterDocument Daemon.init ":1.1" "file:///a.pdf").1
        ":1.2" "file:///a.pdf").1 = (RegisterDocument Daemon.init ":1.1" "file:///a.pdf").1 :=
  (unregister_by_other_is_refused (RegisterDocument Daemon.init ":1.1" "file:///a.pdf").1
      ":1.2" "file:///a.pdf" ⟨":1.1", "file:///a.pdf", 1⟩ (by decide) (by decide)).2.1

/-- C5: when `ev_daemon_find_doc` finds no document for the uri,
`UnregisterDocument` from any sender answers with the error
`G_DBUS_ERROR_INVALID_ARGS` ("URI not registered") and the state, in particular
the registry and `kill_timer_id`, is unchanged. -/
theorem unregister_unknown_is_invalid_args (s : Daemon) (sender uri : String)
    (h : ev_daemon_find_doc s.ev_daemon_docs uri = none) :
    (UnregisterDocument s sender uri).2 =
      some (Reply.return_error GDBusError.INVALID_ARGS "URI not registered") ∧
    (UnregisterDocument s sender uri).1 = s ∧
    (UnregisterDocument s sender uri).1.ev_daemon_docs = s.ev_daemon_docs ∧
    (UnregisterDocument s sender uri).1.kill_timer_id = s.kill_timer_id := by
  rw [UnregisterDocument_absent sender h]
  exact ⟨rfl, rfl, rfl, rfl⟩

theorem unregister_unknown_is_invalid_args_witness :
    (UnregisterDocument (RegisterDocument Daemon.init ":1.1" "file:///a.pdf").1
        ":1.1" "file:///b.pdf").2 =
      some (Reply.return_error GDBusError.INVALID_ARGS "URI not registered") :=
  (unregister_unknown_is_invalid_args (RegisterDocument Daemon.init ":1.1" "file:///a.pdf").1
      ":1.1" "file:///b.pdf" (by decide)).1

/-- C6: `UnregisterDocument` from `sender` answers with success exactly when
`ev_daemon_find_doc` finds a document whose `dbus_name` is `sender`.  On
success the node the lookup found is taken out of the list and the rest keeps
its content and order, so the registry is one shorter; afterwards
`kill_timer_id` is set exactly when the registry is empty; and when the uris
are pairwise distinct, as in every reachable state, the uri is no longer
found and the new list is the old one without the documents of that uri. -/
theorem unregister_succeeds_iff_owner (s : Daemon) (sender uri : String) :
    ((UnregisterDocument s sender uri).2 = some Reply.return_unit ↔
      ∃ doc, ev_daemon_find_doc s.ev_daemon_docs uri = some doc ∧ doc.dbus_name = sender) ∧
    ((UnregisterDocument s sender uri).2 = some Reply.return_unit →
      (UnregisterDocument s sender uri).1.ev_daemon_docs.length + 1 =
        s.ev_daemon_docs.length ∧
      (∃ l1 doc l2, s.ev_daemon_docs = l1 ++ doc :: l2 ∧ doc.uri = uri ∧
        doc.dbus_name = sender ∧ (∀ d ∈ l1, d.uri ≠ uri) ∧
        (UnregisterDocument s sender uri).1.ev_daemon_docs = l1 ++ l2) ∧
      (timer_armed (UnregisterDocument s sender uri).1 ↔
        (UnregisterDocument s sender uri).1.ev_daemon_docs = []) ∧
      (unique_keys s →
        ev_daemon_find_doc (UnregisterDocument s sender uri).1.ev_daemon_docs uri = none ∧
        (UnregisterDocument s sender uri).1.ev_daemon_docs =
          s.ev_daemon_docs.filter (fun d => d.uri ≠ uri)) ∧
      (Reachable s →
        ev_daemon_find_doc (UnregisterDocument s sender uri).1.ev_daemon_docs uri = none)) := by
  have hiff : (UnregisterDocument s sender uri).2 = some Reply.return_unit ↔
      ∃ doc, ev_daemon_find_doc s.ev_daemon_docs uri = some doc ∧ doc.dbus_name = sender := by
    cases hf : ev_daemon_find_doc s.ev_daemon_docs uri with
    | none => rw [UnregisterDocument_absent sender hf]; simp
    | some doc =>
      by_cases ho : doc.dbus_name = sender
      · rw [UnregisterDocument_owner hf ho]; simp [ho]
      · rw [UnregisterDocument_other hf ho]; simp [ho]
  refine ⟨hiff, ?_⟩
  intro hok
  obtain ⟨doc, hf, ho⟩ := hiff.mp hok
  obtain ⟨l1, l2, hl, hl1, hrm⟩ := g_list_remove_find hf
  have hdocs : (UnregisterDocument s sender uri).1.ev_daemon_docs = l1 ++ l2 := by
    rw [UnregisterDocument_owner_docs hf ho, hrm]
  have huri : doc.uri = uri := (find_doc_some hf).2
  have hkeys : unique_keys s →
      ev_daemon_find_doc (UnregisterDocument s sender uri).1.ev_daemon_docs uri = none ∧
      (UnregisterDocument s sender uri).1.ev_daemon_docs =
        s.ev_daemon_docs.filter (fun d => d.uri ≠ uri) := by
    intro hu
    unfold unique_keys at hu
    rw [hl] at hu
    have hsplit := unique_keys_split hu
    rw [huri] at hsplit
    refine ⟨?_, ?_⟩
    · rw [hdocs]
      exact find_doc_none.mpr hsplit
    · rw [hdocs, hl, List.filter_append, List.filter_cons]
      have h1 : l1.filter (fun d => d.uri ≠ uri) = l1 :=
        List.filter_eq_self.mpr (fun d hd => by simpa using hsplit d (List.mem_append_left _ hd))
      have h2 : l2.filter (fun d => d.uri ≠ uri) = l2 :=
        List.filter_eq_self.mpr (fun d hd => by simpa using hsplit d (List.mem_append_right _ hd))
      rw [h1, h2]
      simp [huri]
  refine ⟨?_, ⟨l1, doc, l2, hl, huri, ho, hl1, hdocs⟩, ?_, hkeys, ?_⟩
  · rw [hdocs, hl]
    simp
    omega
  · rw [UnregisterDocument_owner hf ho, maybe_start_docs]
    exact maybe_start_armed_iff _
  · intro hr
    exact (hkeys (reachable_unique_keys s hr)).1

theorem unregister_succeeds_iff_owner_witness :
    (UnregisterDocument (RegisterDocument Daemon.init ":1.1" "file:///a.pdf").1
        ":1.1" "file:///a.pdf").2 = some Reply.return_unit ∧
    timer_armed (UnregisterDocument (RegisterDocument Daemon.init ":1.1" "file:///a.pdf").1
        ":1.1" "file:///a.pdf").1 :=
  ⟨by decide,
   ((unregister_succeeds_iff_owner (RegisterDocument Daemon.init ":1.1" "file:///a.pdf").1
      ":1.1" "file:///a.pdf").2 (by decide)).2.2.1.mpr (by decide)⟩

/-! ## Name-vanished notifications -/

/-- C7 (the code departs from it): in the state reached by two
`RegisterDocument` calls of one client for two uris, `name_vanished_cb` for
that client deletes the newer document, releases the watch of that document
and returns.  The older document is still registered to the vanished client
and its uri is still bound to it: a `RegisterDocument` for that uri from
another client changes nothing and is pointed to the vanished client. -/
theorem name_vanished_leaves_older_doc_registered :
    Reachable (run Daemon.init
      [Event.RegisterDocument ":1.1" "file:///a.pdf",
       Event.RegisterDocument ":1.1" "file:///b.pdf"]) ∧
    (name_vanished_cb (run Daemon.init
      [Event.RegisterDocument ":1.1" "file:///a.pdf",
       Event.RegisterDocument ":1.1" "file:///b.pdf"]) ":1.1").ev_daemon_docs =
      [⟨":1.1", "file:///a.pdf", 1⟩] ∧
    (name_vanished_cb (run Daemon.init
      [Event.RegisterDocument ":1.1" "file:///a.pdf",
       Event.RegisterDocument ":1.1" "file:///b.pdf"]) ":1.1").watches = [⟨1, ":1.1"⟩] ∧
    (¬ ∀ d ∈ (name_vanished_cb (run Daemon.init
      [Event.RegisterDocument ":1.1" "file:///a.pdf",
       Event.RegisterDocument ":1.1" "file:///b.pdf"]) ":1.1").ev_daemon_docs,
      d.dbus_name ≠ ":1.1") ∧
    ev_daemon_find_doc (name_vanished_cb (run Daemon.init
      [Event.RegisterDocument ":1.1" "file:///a.pdf",
       Event.RegisterDocument ":1.1" "file:///b.pdf"]) ":1.1").ev_daemon_docs
      "file:///a.pdf" = some ⟨":1.1", "file:///a.pdf", 1⟩ ∧
    RegisterDocument (name_vanished_cb (run Daemon.init
      [Event.RegisterDocument ":1.1" "file:///a.pdf",
       Event.RegisterDocument ":1.1" "file:///b.pdf"]) ":1.1") ":1.2" "file:///a.pdf" =
      (name_vanished_cb (run Daemon.init
        [Event.RegisterDocument ":1.1" "file:///a.pdf",
         Event.RegisterDocument ":1.1" "file:///b.pdf"]) ":1.1",
       some (Reply.return_string (some ":1.1"))) :=
  ⟨⟨_, rfl⟩, by decide, by decide, by decide, by decide, by decide⟩

/-! ## Invariants of the reachable states -/

/-- C8: in every state reached from the state at process start by any sequence
of `RegisterDocument`, `UnregisterDocument`, name-vanished and name-acquired
events (and time passing), with any senders and uris, no two documents of the
registry have the same uri. -/
theorem registry_keys_unique (evs : List Event) :
    ((run Daemon.init evs).ev_daemon_docs.map EvDoc.uri).Nodup ∧
    ∀ d1 ∈ (run Daemon.init evs).ev_daemon_docs, ∀ d2 ∈ (run Daemon.init evs).ev_daemon_docs,
      d1.uri = d2.uri → d1 = d2 := by
  have h : unique_keys (run Daemon.init evs) := reachable_unique_keys _ ⟨evs, rfl⟩
  exact ⟨h, fun d1 h1 d2 h2 heq => List.inj_on_of_nodup_map h h1 h2 heq⟩

/-- C9: in every state reached from the state at process start (empty
registry, `kill_timer_id` zero, no pending source) by any sequence of
`RegisterDocument`, `UnregisterDocument`, name-vanished and name-acquired
events (and time passing), if `kill_timer_id` is set, or if any timeout source
is pending at all, then the registry is empty. -/
theorem idle_timer_armed_only_when_empty (evs : List Event)
    (h : timer_armed (run Daemon.init evs) ∨ (run Daemon.init evs).timeouts ≠ []) :
    (run Daemon.init evs).ev_daemon_docs = [] := by
  have hr : Reachable (run Daemon.init evs) := ⟨evs, rfl⟩
  apply reachable_armed_empty _ hr
  rcases h with ha | hp
  · exact ha
  · rcases reachable_timer_consistent _ hr with ⟨_, ht⟩ | ⟨hne, _⟩
    · exact absurd ht hp
    · exact hne

theorem idle_timer_armed_only_when_empty_witness :
    timer_armed (run Daemon.init
      [Event.name_acquired, Event.RegisterDocument ":1.1" "file:///a.pdf",
       Event.UnregisterDocument ":1.1" "file:///a.pdf"]) ∧
    (run Daemon.init
      [Event.name_acquired, Event.RegisterDocument ":1.1" "file:///a.pdf",
       Event.UnregisterDocument ":1.1" "file:///a.pdf"]).ev_daemon_docs = [] :=
  ⟨by decide,
   idle_timer_armed_only_when_empty
      [Event.name_acquired, Event.RegisterDocument ":1.1" "file:///a.pdf",
       Event.UnregisterDocument ":1.1" "file:///a.pdf"] (Or.inl (by decide))⟩

/-! ## The exit status of `main` -/

/-- C10 as stated fails: with the bus connection obtained and the object
registered, a name-lost notification that comes without any name-acquired
before it makes `main` return 0, not 1. -/
theorem main_returns_zero_on_name_lost :
    main true 1 [LoopEvent.name_lost] = some 0 ∧
    main true 1 [LoopEvent.name_lost] ≠ some 1 := by
  decide

/-- C10, amended: `main` returns 1 exactly when the bus connection cannot be
obtained or the object registration fails.  It returns 0 exactly when both
succeed and the main loop is quit; and that is what happens when the name-lost
notification is delivered after any registry events, with or without a
name-acquired among them: `name_lost_cb` quits the loop and `main` returns
0. -/
theorem main_exit_status (connection : Bool) (registration_id : Nat) (evs : List LoopEvent) :
    (main connection registration_id evs = some 1 ↔
      connection = false ∨ registration_id = 0) ∧
    (main connection registration_id evs = some 0 ↔
      connection = true ∧ registration_id ≠ 0 ∧ (g_main_loop_run Daemon.init evs).isSome) ∧
    (∀ (pre : List Event) (post : List LoopEvent),
      evs = pre.map LoopEvent.daemon ++ LoopEvent.name_lost :: post →
      connection = true → registration_id ≠ 0 →
      main connection registration_id evs = some 0) := by
  have h0 : main connection registration_id evs = some 0 ↔
      connection = true ∧ registration_id ≠ 0 ∧ (g_main_loop_run Daemon.init evs).isSome := by
    unfold main
    cases connection with
    | false => simp
    | true =>
      by_cases hr : registration_id = 0
      · simp [hr]
      · cases hl : g_main_loop_run Daemon.init evs <;> simp [hr]
  refine ⟨?_, h0, ?_⟩
  · unfold main
    cases connection with
    | false => simp
    | true =>
      by_cases hr : registration_id = 0
      · simp [hr]
      · cases hl : g_main_loop_run Daemon.init evs <;> simp [hr]
  · intro pre post hevs hc hr
    rw [h0]
    refine ⟨hc, hr, ?_⟩
    rw [hevs]
    exact main_loop_iterate_name_lost pre post _ rfl

theorem main_exit_status_witness :
    main true 1 (([Event.name_acquired].map LoopEvent.daemon) ++ LoopEvent.name_lost :: []) =
      some 0 :=
  (main_exit_status true 1 (([Event.name_acquired].map LoopEvent.daemon) ++
      LoopEvent.name_lost :: [])).2.2 [Event.name_acquired] [] rfl rfl (by decide)

/-! ## More on name-vanished notifications -/

/-- C15: when no document of the registry is owned by the name,
`name_vanished_cb` returns the state it was given: the registry list,
`kill_timer_id` and the pending timeout sources are exactly as before, so the
timer is neither armed, nor re-armed, nor cancelled. -/
theorem name_vanished_without_doc_is_noop (s : Daemon) (n : String)
    (h : ∀ d ∈ s.ev_daemon_docs, d.dbus_name ≠ n) :
    name_vanished_cb s n = s ∧
    (name_vanished_cb s n).ev_daemon_docs = s.ev_daemon_docs ∧
    (name_vanished_cb s n).kill_timer_id = s.kill_timer_id ∧
    (name_vanished_cb s n).timeouts = s.timeouts := by
  rw [name_vanished_cb_of_not_owner h]
  exact ⟨rfl, rfl, rfl, rfl⟩

theorem name_vanished_without_doc_is_noop_witness :
    name_vanished_cb (run Daemon.init
      [Event.name_acquired, Event.RegisterDocument ":1.1" "file:///a.pdf",
       Event.UnregisterDocument ":1.1" "file:///a.pdf"]) ":1.1" =
    run Daemon.init
      [Event.name_acquired, Event.RegisterDocument ":1.1" "file:///a.pdf",
       Event.UnregisterDocument ":1.1" "file:///a.pdf"] :=
  (name_vanished_without_doc_is_noop (run Daemon.init
      [Event.name_acquired, Event.RegisterDocument ":1.1" "file:///a.pdf",
       Event.UnregisterDocument ":1.1" "file:///a.pdf"]) ":1.1" (by decide)).1

/-- C19: when the name owns at least one document, one run of
`name_vanished_cb` deletes exactly the first node, in list order, whose
`dbus_name` is the name (the most recently registered one, registration
putting new documents in front); every other node, further documents of the
same name included, stays as it is and in the same order, so the registry is
one shorter; afterwards `kill_timer_id` is set exactly when the registry is
empty. -/
theorem name_vanished_removes_first_owned (s : Daemon) (n : String)
    (h : ∃ d ∈ s.ev_daemon_docs, d.dbus_name = n) :
    (∃ l1 doc l2, s.ev_daemon_docs = l1 ++ doc :: l2 ∧ doc.dbus_name = n ∧
      (∀ d ∈ l1, d.dbus_name ≠ n) ∧ (name_vanished_cb s n).ev_daemon_docs = l1 ++ l2) ∧
    (name_vanished_cb s n).ev_daemon_docs.length + 1 = s.ev_daemon_docs.length ∧
    owned_by n (name_vanished_cb s n).ev_daemon_docs = (owned_by n s.ev_daemon_docs).tail ∧
    (name_vanished_cb s n).ev_daemon_docs.filter (fun d => d.dbus_name ≠ n) =
      s.ev_daemon_docs.filter (fun d => d.dbus_name ≠ n) ∧
    (timer_armed (name_vanished_cb s n) ↔ (name_vanished_cb s n).ev_daemon_docs = []) := by
  obtain ⟨l1, doc, l2, hl, hn, hl1, hdocs, harm⟩ := name_vanished_cb_of_owner h
  refine ⟨⟨l1, doc, l2, hl, hn, hl1, hdocs⟩, ?_, name_vanished_cb_owned s n, ?_, harm⟩
  · rw [hdocs, hl]
    simp
    omega
  · rw [hdocs, hl, List.filter_append, List.filter_append, List.filter_cons]
    simp [hn]

theorem name_vanished_removes_first_owned_witness :
    (name_vanished_cb (run Daemon.init
      [Event.RegisterDocument ":1.1" "file:///a.pdf",
       Event.RegisterDocument ":1.2" "file:///b.pdf",
       Event.RegisterDocument ":1.1" "file:///c.pdf"]) ":1.1").ev_daemon_docs.length + 1 = 3 :=
  (name_vanished_removes_first_owned (run Daemon.init
      [Event.RegisterDocument ":1.1" "file:///a.pdf",
       Event.RegisterDocument ":1.2" "file:///b.pdf",
       Event.RegisterDocument ":1.1" "file:///c.pdf"]) ":1.1" (by decide)).2.1

/-! ## The idle timer in the reachable states -/

/-- C12: in every reachable state and for every sender and uri, after a
`RegisterDocument` call `kill_timer_id` is zero and no timeout source is
pending, whether the uri is new or is already registered. -/
theorem register_call_leaves_timer_disarmed (evs : List Event) (sender uri : String) :
    ¬ timer_armed (RegisterDocument (run Daemon.init evs) sender uri).1 ∧
    (RegisterDocument (run Daemon.init evs) sender uri).1.kill_timer_id = 0 ∧
    (RegisterDocument (run Daemon.init evs) sender uri).1.timeouts = [] := by
  have hr : Reachable (run Daemon.init evs) := ⟨evs, rfl⟩
  have hc := reachable_timer_consistent _ hr
  have hmain : (RegisterDocument (run Daemon.init evs) sender uri).1.kill_timer_id = 0 ∧
      (RegisterDocument (run Daemon.init evs) sender uri).1.timeouts = [] := by
    cases hf : ev_daemon_find_doc (run Daemon.init evs).ev_daemon_docs uri with
    | some doc =>
      rw [RegisterDocument_found sender hf]
      have hne : (run Daemon.init evs).ev_daemon_docs ≠ [] :=
        List.ne_nil_of_mem (find_doc_some hf).1
      rcases hc with ⟨h0, ht⟩ | ⟨hid, _⟩
      · exact ⟨h0, ht⟩
      · exact absurd (reachable_armed_empty _ hr hid) hne
    | none =>
      rw [RegisterDocument_absent_id sender hf, RegisterDocument_absent_timeouts sender hf]
      exact ⟨rfl, stop_killtimer_timeouts hc⟩
  refine ⟨?_, hmain⟩
  unfold timer_armed
  rw [hmain.1]
  simp

/-- C13 as stated fails: a `RegisterDocument` and the owner's
`UnregisterDocument`, with no name-acquired event at all, leave
`kill_timer_id` set on an empty registry, although `name_acquired_cb` has not
run. -/
theorem timer_armed_before_name_acquired :
    timer_armed (run Daemon.init
      [Event.RegisterDocument ":1.1" "file:///a.pdf",
       Event.UnregisterDocument ":1.1" "file:///a.pdf"]) ∧
    (run Daemon.init
      [Event.RegisterDocument ":1.1" "file:///a.pdf",
       Event.UnregisterDocument ":1.1" "file:///a.pdf"]).ev_daemon_docs = [] ∧
    Event.name_acquired ∉
      [Event.RegisterDocument ":1.1" "file:///a.pdf",
       Event.UnregisterDocument ":1.1" "file:///a.pdf"] := by
  decide

/-- C13, amended: in every state reached from the state at process start by
any sequence of `RegisterDocument`, `UnregisterDocument`, name-vanished and
name-acquired events (and time passing), if `kill_timer_id` is set then the
registry is empty; and once `name_acquired_cb` has run, `kill_timer_id` is set
exactly when the registry is empty. -/
theorem timer_token_invariant (evs : List Event) :
    (timer_armed (run Daemon.init evs) → (run Daemon.init evs).ev_daemon_docs = []) ∧
    (Event.name_acquired ∈ evs →
      (timer_armed (run Daemon.init evs) ↔ (run Daemon.init evs).ev_daemon_docs = [])) :=
  ⟨reachable_armed_empty _ ⟨evs, rfl⟩, run_armed_iff_empty_of_acquired evs⟩

theorem timer_token_invariant_witness :
    timer_armed (run Daemon.init
      [Event.name_acquired, Event.RegisterDocument ":1.1" "file:///a.pdf",
       Event.name_vanished ":1.1"]) :=
  ((timer_token_invariant
      [Event.name_acquired, Event.RegisterDocument ":1.1" "file:///a.pdf",
       Event.name_vanished ":1.1"]).2 (by decide)).mpr (by decide)

/-- C18: in every reachable state at most one timeout source is pending, and
a pending source is the one `kill_timer_id` names; when
`ev_daemon_maybe_start_killtimer` is called with a source pending and the
registry empty, that source is cancelled and exactly one source is pending
afterwards, a new one named by `kill_timer_id` and due `DAEMON_TIMEOUT`
seconds after the time of this call; the timer is armed before and after. -/
theorem at_most_one_pending_timeout (evs : List Event) :
    (run Daemon.init evs).timeouts.length ≤ 1 ∧
    (∀ t ∈ (run Daemon.init evs).timeouts,
      t.id = (run Daemon.init evs).kill_timer_id ∧ timer_armed (run Daemon.init evs)) ∧
    (timer_armed (run Daemon.init evs) →
      ∃ deadline, (run Daemon.init evs).timeouts =
        [⟨(run Daemon.init evs).kill_timer_id, deadline⟩]) ∧
    ((run Daemon.init evs).timeouts ≠ [] → (run Daemon.init evs).ev_daemon_docs = [] →
      timer_armed (run Daemon.init evs) ∧
      timer_armed (ev_daemon_maybe_start_killtimer (run Daemon.init evs)) ∧
      (ev_daemon_maybe_start_killtimer (run Daemon.init evs)).timeouts =
        [⟨(ev_daemon_maybe_start_killtimer (run Daemon.init evs)).kill_timer_id,
          (run Daemon.init evs).now + DAEMON_TIMEOUT⟩] ∧
      (ev_daemon_maybe_start_killtimer (run Daemon.init evs)).kill_timer_id ≠
        (run Daemon.init evs).kill_timer_id ∧
      ∀ t ∈ (ev_daemon_maybe_start_killtimer (run Daemon.init evs)).timeouts,
        t.id ≠ (run Daemon.init evs).kill_timer_id) := by
  have hr : Reachable (run Daemon.init evs) := ⟨evs, rfl⟩
  have hc := reachable_timer_consistent _ hr
  have hle := reachable_kill_timer_le _ hr
  refine ⟨?_, ?_, ?_, ?_⟩
  · rcases hc with ⟨_, ht⟩ | ⟨_, deadline, ht⟩ <;> simp [ht]
  · intro t ht
    rcases hc with ⟨_, h0⟩ | ⟨hid, deadline, h1⟩
    · rw [h0] at ht; simp at ht
    · rw [h1] at ht
      simp at ht
      exact ⟨by rw [ht], hid⟩
  · intro ha
    rcases hc with ⟨h0, _⟩ | ⟨_, h1⟩
    · exact absurd h0 ha
    · exact h1
  · intro hp hd
    have harmed : timer_armed (run Daemon.init evs) := by
      rcases hc with ⟨_, h0⟩ | ⟨hid, _⟩
      · exact absurd h0 hp
      · exact hid
    obtain ⟨hid, hto⟩ := maybe_start_rearm hc hd
    refine ⟨harmed, (maybe_start_armed_iff _).mpr hd, ?_, ?_, ?_⟩
    · rw [hto, hid]
    · rw [hid]; omega
    · intro t ht
      rw [hto] at ht
      simp at ht
      rw [ht]
      simp only
      omega

theorem at_most_one_pending_timeout_witness :
    (ev_daemon_maybe_start_killtimer (run Daemon.init
      [Event.name_acquired, Event.elapse 10])).timeouts = [⟨2, 40⟩] :=
  ((at_most_one_pending_timeout [Event.name_acquired, Event.elapse 10]).2.2.2
      (by decide) (by decide)).2.2.1

/-! ## The lookup and the ownership of a uri -/

/-- C14 (the code departs from it in the two answers to a new owner): from the
empty registry, `RegisterDocument (u)` from `c1` leaves one document and
answers with `owner` still `NULL`, not with the empty string; the same call
from `c2` answers `c1` and the registry keeps its one document; the
name-vanished notification for `c1` empties the registry; `RegisterDocument
(u)` from `c3` then binds `u` to `c3`, again answering with `NULL`. -/
theorem handover_scenario (u c1 c2 c3 : String) :
    (RegisterDocument Daemon.init c1 u).2 = some (Reply.return_string none) ∧
    (RegisterDocument Daemon.init c1 u).2 ≠ some (Reply.return_string (some "")) ∧
    (RegisterDocument (RegisterDocument Daemon.init c1 u).1 c2 u).2 =
      some (Reply.return_string (some c1)) ∧
    (RegisterDocument (RegisterDocument Daemon.init c1 u).1 c2 u).1.ev_daemon_docs.length = 1 ∧
    (name_vanished_cb (RegisterDocument (RegisterDocument Daemon.init c1 u).1 c2 u).1
      c1).ev_daemon_docs = [] ∧
    (RegisterDocument (name_vanished_cb
      (RegisterDocument (RegisterDocument Daemon.init c1 u).1 c2 u).1 c1) c3 u).2 =
      some (Reply.return_string none) ∧
    (RegisterDocument (name_vanished_cb
      (RegisterDocument (RegisterDocument Daemon.init c1 u).1 c2 u).1 c1) c3 u).2 ≠
      some (Reply.return_string (some "")) ∧
    ev_daemon_find_doc (RegisterDocument (name_vanished_cb
      (RegisterDocument (RegisterDocument Daemon.init c1 u).1 c2 u).1 c1) c3 u).1.ev_daemon_docs
      u = some ⟨c3, u, 2⟩ := by
  have h0 : ev_daemon_find_doc Daemon.init.ev_daemon_docs u = none := rfl
  have hd1 : (RegisterDocument Daemon.init c1 u).1.ev_daemon_docs = [⟨c1, u, 1⟩] := by
    rw [RegisterDocument_absent_docs c1 h0]; rfl
  have hf1 : ev_daemon_find_doc (RegisterDocument Daemon.init c1 u).1.ev_daemon_docs u =
      some ⟨c1, u, 1⟩ := by
    rw [hd1]; simp [ev_daemon_find_doc]
  have h2 := RegisterDocument_found c2 hf1
  have hs : name_vanished_scan c1 (RegisterDocument Daemon.init c1 u).1.ev_daemon_docs =
      some (⟨c1, u, 1⟩, []) := by
    rw [hd1]; simp [name_vanished_scan]
  have hd3 : (name_vanished_cb (RegisterDocument Daemon.init c1 u).1 c1).ev_daemon_docs = [] :=
    name_vanished_cb_some_docs hs
  have hf3 : ev_daemon_find_doc
      (name_vanished_cb (RegisterDocument Daemon.init c1 u).1 c1).ev_daemon_docs u = none := by
    rw [hd3]; rfl
  have hw : (ev_daemon_stop_killtimer
      (name_vanished_cb (RegisterDocument Daemon.init c1 u).1 c1)).last_watch_id = 1 := by
    rw [name_vanished_cb_some hs, RegisterDocument_absent c1 h0]
    simp [ev_daemon_stop_killtimer, ev_daemon_maybe_start_killtimer, g_timeout_add_seconds,
      g_source_remove, ev_doc_free, g_bus_unwatch_name, g_bus_watch_name, Daemon.init]
  rw [h2]
  refine ⟨?_, ?_, rfl, ?_, hd3, ?_, ?_, ?_⟩
  · rw [RegisterDocument_absent c1 h0]
  · rw [RegisterDocument_absent c1 h0]; simp
  · rw [hd1]; rfl
  · rw [RegisterDocument_absent c3 hf3]
  · rw [RegisterDocument_absent c3 hf3]; simp
  · rw [RegisterDocument_absent_docs c3 hf3, hd3, hw]
    simp [ev_daemon_find_doc]

/-- C16: `ev_daemon_find_doc` returns nothing exactly when no document of the
list has the uri; it returns a document exactly when that document sits at
the first position, in list order, that has the uri; with pairwise distinct
uris it returns every document of the list that has the uri, which is then
the only one.  It is a function of the list and the uri alone and hands back
no list: the registry is not touched. -/
theorem find_doc_is_first_match (docs : List EvDoc) (uri : String) :
    (ev_daemon_find_doc docs uri = none ↔ ∀ d ∈ docs, d.uri ≠ uri) ∧
    (∀ doc, ev_daemon_find_doc docs uri = some doc ↔
      ∃ l1 l2, docs = l1 ++ doc :: l2 ∧ doc.uri = uri ∧ ∀ d ∈ l1, d.uri ≠ uri) ∧
    (∀ doc, ev_daemon_find_doc docs uri = some doc → doc ∈ docs ∧ doc.uri = uri) ∧
    ((docs.map EvDoc.uri).Nodup →
      ∀ doc ∈ docs, doc.uri = uri →
        ev_daemon_find_doc docs uri = some doc ∧ ∀ d ∈ docs, d.uri = uri → d = doc) ∧
    ev_daemon_find_doc docs uri = docs.find? (fun d => d.uri = uri) := by
  refine ⟨find_doc_none, fun doc => find_doc_some_iff, fun doc h => find_doc_some h, ?_,
    find_doc_eq_find docs uri⟩
  intro hnd doc hdoc hu
  have huniq : ∀ d ∈ docs, d.uri = uri → d = doc := fun d hd hdu =>
    List.inj_on_of_nodup_map hnd hd hdoc (by rw [hdu, hu])
  refine ⟨?_, huniq⟩
  cases hf : ev_daemon_find_doc docs uri with
  | none => exact absurd hu (find_doc_none.mp hf doc hdoc)
  | some d => rw [huniq d (find_doc_some hf).1 (find_doc_some hf).2]

theorem find_doc_is_first_match_witness :
    ev_daemon_find_doc [⟨":1.1", "file:///a.pdf", 1⟩, ⟨":1.2", "file:///b.pdf", 2⟩]
      "file:///b.pdf" = some ⟨":1.2", "file:///b.pdf", 2⟩ :=
  ((find_doc_is_first_match [⟨":1.1", "file:///a.pdf", 1⟩, ⟨":1.2", "file:///b.pdf", 2⟩]
      "file:///b.pdf").2.2.2.1 (by decide) ⟨":1.2", "file:///b.pdf", 2⟩ (by decide) rfl).1

/-- C17: in every reachable state and for every single event, a uri that is
found both before and after the event is bound to the same document, hence to
the same owner; and along any further run of events, if the owner of a uri has
changed, then the uri was not registered at some point in between. -/
theorem owner_never_changes_in_place (evs : List Event) (uri : String) (d : EvDoc)
    (hb : ev_daemon_find_doc (run Daemon.init evs).ev_daemon_docs uri = some d) :
    (∀ (e : Event) (d2 : EvDoc),
      ev_daemon_find_doc (step (run Daemon.init evs) e).ev_daemon_docs uri = some d2 →
      d2.dbus_name = d.dbus_name ∧ d2 = d) ∧
    (∀ (more : List Event) (d2 : EvDoc),
      ev_daemon_find_doc (run Daemon.init (evs ++ more)).ev_daemon_docs uri = some d2 →
      d2.dbus_name ≠ d.dbus_name →
      ∃ p q, more = p ++ q ∧
        ev_daemon_find_doc (run Daemon.init (evs ++ p)).ev_daemon_docs uri = none) := by
  have hone : ∀ (l : List Event) (e : Event) (d1 d2 : EvDoc),
      ev_daemon_find_doc (run Daemon.init l).ev_daemon_docs uri = some d1 →
      ev_daemon_find_doc (step (run Daemon.init l) e).ev_daemon_docs uri = some d2 →
      d2 = d1 := fun l e d1 d2 h1 h2 =>
    step_find_of_unique e (reachable_unique_keys _ ⟨l, rfl⟩) h1 h2
  refine ⟨fun e d2 ha => ?_, ?_⟩
  · have h := hone evs e d d2 hb ha
    exact ⟨by rw [h], h⟩
  · intro more
    induction more using List.reverseRecOn with
    | nil =>
      intro d2 ha hne
      rw [List.append_nil, hb] at ha
      exact absurd (by rw [Option.some.inj ha]) hne
    | append_singleton l e ih =>
      intro d2 ha hne
      rw [← List.append_assoc, run_append] at ha
      cases hmid : ev_daemon_find_doc (run Daemon.init (evs ++ l)).ev_daemon_docs uri with
      | none => exact ⟨l, [e], rfl, hmid⟩
      | some dm =>
        have hdm : d2 = dm := hone (evs ++ l) e dm d2 hmid ha
        obtain ⟨p, q, hpq, hp⟩ := ih dm hmid (by rw [← hdm]; exact hne)
        exact ⟨p, q ++ [e], by rw [hpq, List.append_assoc], hp⟩

theorem owner_never_changes_in_place_witness :
    ev_daemon_find_doc (run Daemon.init
      [Event.RegisterDocument ":1.1" "file:///a.pdf"]).ev_daemon_docs "file:///a.pdf" =
      some ⟨":1.1", "file:///a.pdf", 1⟩ ∧
    ev_daemon_find_doc (step (run Daemon.init [Event.RegisterDocument ":1.1" "file:///a.pdf"])
      (Event.RegisterDocument ":1.2" "file:///a.pdf")).ev_daemon_docs "file:///a.pdf" =
      some ⟨":1.1", "file:///a.pdf", 1⟩ ∧
    (⟨":1.1", "file:///a.pdf", 1⟩ : EvDoc).dbus_name = ":1.1" :=
  ⟨by decide, by decide,
   ((owner_never_changes_in_place [Event.RegisterDocument ":1.1" "file:///a.pdf"]
      "file:///a.pdf" ⟨":1.1", "file:///a.pdf", 1⟩ (by decide)).1
      (Event.RegisterDocument ":1.2" "file:///a.pdf") ⟨":1.1", "file:///a.pdf", 1⟩
      (by decide)).1⟩

/-- C20: for every state, every document of the registry and every event
attributed to another identity than the document's owner (a `RegisterDocument`
or `UnregisterDocument` call from it, for any uri, or a name-vanished
notification for it), the document is still in the registry after the event,
and if its uri was bound to it before, it still is; a document leaves the
registry only through `UnregisterDocument` for its uri from its own owner or
through a name-vanished notification for its own owner. -/
theorem other_clients_cannot_remove (s : Daemon) (d : EvDoc) (e : Event) (m : String)
    (hd : d ∈ s.ev_daemon_docs) (hm : event_identity e = some m) (hne : m ≠ d.dbus_name) :
    d ∈ (step s e).ev_daemon_docs ∧
    (ev_daemon_find_doc s.ev_daemon_docs d.uri = some d →
      ev_daemon_find_doc (step s e).ev_daemon_docs d.uri = some d) ∧
    (∀ e2 : Event, d ∉ (step s e2).ev_daemon_docs →
      e2 = Event.UnregisterDocument d.dbus_name d.uri ∨
      e2 = Event.name_vanished d.dbus_name) := by
  refine ⟨?_, fun hb => step_find_of_other hb hm hne, fun e2 h2 => step_removed_by_owner hd h2⟩
  by_contra hgone
  rcases step_removed_by_owner hd hgone with h | h
  · rw [h] at hm
    simp only [event_identity, Option.some.injEq] at hm
    exact hne hm.symm
  · rw [h] at hm
    simp only [event_identity, Option.some.injEq] at hm
    exact hne hm.symm

theorem other_clients_cannot_remove_witness :
    (⟨":1.1", "file:///a.pdf", 1⟩ : EvDoc) ∈
      (step (run Daemon.init [Event.RegisterDocument ":1.1" "file:///a.pdf"])
        (Event.UnregisterDocument ":1.2" "file:///a.pdf")).ev_daemon_docs :=
  (other_clients_cannot_remove (run Daemon.init [Event.RegisterDocument ":1.1" "file:///a.pdf"])
      ⟨":1.1", "file:///a.pdf", 1⟩ (Event.UnregisterDocument ":1.2" "file:///a.pdf") ":1.2"
      (by decide) rfl (by decide)).1

end EvDaemon
